import Mathlib

/-!
# cblite: command dispatch, database opener and interactive shell

A shallow embedding of `cblite/CBLiteTool.cc`.  Each function of the source file is
a Lean function of the same name over an explicit tool state.  C++ exceptions and
`exit()` are constructors of `Result`; everything the tool does to the outside world
(text written, passwords read, engine calls) is appended to the tool's `log`.

Code that `CBLiteTool.cc` calls but that lives elsewhere is either a field of `Env`
(the database engine, the subcommand implementations, constants of the engine's
headers, the build configuration) or, for the `Tool` base class, a definition whose
doc comment says that it is modelled from the specification.
-/

namespace CBLite

/-! ## Engine types -/

/-- The engine's `C4EncryptionAlgorithm`. -/
inductive C4EncryptionAlgorithm where
  | kC4EncryptionNone
  | kC4EncryptionAES256
deriving DecidableEq, Repr

/-- The engine's `C4EncryptionKey`: an algorithm tag and the key bytes. -/
structure C4EncryptionKey where
  algorithm : C4EncryptionAlgorithm
  bytes : List Nat
deriving DecidableEq, Repr

/-- The fields of `C4DatabaseConfig` that the tool touches. -/
structure C4DatabaseConfig where
  flags : Nat
  encryptionKey : C4EncryptionKey
deriving DecidableEq, Repr

/-- The engine's `C4Error`; `==` compares the domain and the code. -/
structure C4Error where
  domain : Nat
  code : Nat
deriving DecidableEq, Repr

/-- Size in bytes of an AES-256 key (`kC4EncryptionKeySizeAES256`). -/
def kC4EncryptionKeySizeAES256 : Nat := 32

/-- The flag bit `kC4DB_Create` of `C4DatabaseFlags`. -/
def kC4DB_Create : Nat := 1

/-- The flag bit `kC4DB_ReadOnly` of `C4DatabaseFlags`. -/
def kC4DB_ReadOnly : Nat := 2

/-- The required filename suffix (`kC4DatabaseFilenameExtension`). -/
def kC4DatabaseFilenameExtension : String := ".cblite2"

/-- Bitwise complement `~x` of a 32-bit unsigned value (`C4DatabaseFlags` is `uint32_t`). -/
def bitNot32 (x : Nat) : Nat := 2 ^ 32 - 1 - x % 2 ^ 32

/-- The value of a zero-initialised `C4EncryptionKey`, as in `C4DatabaseConfig config = {_dbFlags}`. -/
def zeroKey : C4EncryptionKey :=
  ⟨C4EncryptionAlgorithm.kC4EncryptionNone, List.replicate kC4EncryptionKeySizeAES256 0⟩

/-! ## Tool state, results, environment -/

/-- What the tool does to the outside world, in order. -/
inductive Event where
  | cout (text : String)
  | cerr (text : String)
  | usageText
  | subcommandList
  | commandUsage (name : String)
  | version (text : String)
  | failed (msg : String) (err : Option C4Error)
  | failedMisuse (msg : String)
  | readPassword (prompt : String) (response : String)
  | readLine (prompt : String) (line : Option (List String))
  | c4db_open (path : String) (config : C4DatabaseConfig)
  | c4db_close (db : Nat)
deriving DecidableEq, Repr

/-- The tool object: the argument cursor of the `Tool` base class, the members of
`CBLiteTool`, the password responses the terminal will still give, and the log. -/
structure CBLiteTool where
  _args : List String
  _db : Option Nat
  _dbFlags : Nat
  _dbNeedsPassword : Bool
  _interactive : Bool
  passwords : List String
  log : List Event
deriving DecidableEq, Repr

/-- How a call ends: it returns a value, throws `exit_error`, throws `fail_error`,
throws anything else, terminates the process through `exit(status)`, or waits for a
password response that the terminal script does not contain. -/
inductive Result (α : Type) where
  | ok (a : α)
  | exit_error
  | fail_error
  | error (what : String)
  | exited (status : Nat)
  | starved
deriving DecidableEq, Repr

/-- A member function of the tool: it runs on a tool state and ends in a `Result`. -/
abbrev Tool (α : Type) : Type := CBLiteTool → Result α × CBLiteTool

/-- The command factories named in the registry of `subcommand`. -/
inductive Factory where
  | newCatCommand | newCompactCommand | newCpCommand | newExportCommand
  | newInfoCommand | newImportCommand | newListCommand | newPullCommand
  | newPushCommand | newPutCommand | newQueryCommand | newRevsCommand
  | newRmCommand | newSelectCommand | newSQLCommand | newServeCommand
  | newDecryptCommand | newEncryptCommand
deriving DecidableEq, Repr

/-- A command instance: the factory that made it and the name set by `setName`. -/
structure CBLiteCommand where
  factory : Factory
  name : String
deriving DecidableEq, Repr

/-- Everything `CBLiteTool.cc` uses without defining it: the build configuration,
constants of the engine's headers, the engine's operations and the subcommands. -/
structure Env where
  COUCHBASE_ENTERPRISE : Bool
  kSeparator : Char
  LiteCoreDomain : Nat
  kC4ErrorNotADatabaseFile : Nat
  fileOrDirName : String → String
  fixUpPath : String → String
  c4_getVersion : String
  c4db_getPath : Option Nat → String
  c4db_open : String → C4DatabaseConfig → Except C4Error Nat
  c4key_setPassword : C4EncryptionKey → String → Bool × C4EncryptionKey
  runSubcommand : CBLiteCommand → Tool Unit

/-- Sequencing of two steps: the second runs only if the first returned. -/
def Tool.bind {α β : Type} (m : Tool α) (f : α → Tool β) : Tool β := fun s =>
  match m s with
  | (Result.ok a, s1) => f a s1
  | (Result.exit_error, s1) => (Result.exit_error, s1)
  | (Result.fail_error, s1) => (Result.fail_error, s1)
  | (Result.error w, s1) => (Result.error w, s1)
  | (Result.exited n, s1) => (Result.exited n, s1)
  | (Result.starved, s1) => (Result.starved, s1)

/-- A step that returns a value and changes nothing. -/
def Tool.pure {α : Type} (a : α) : Tool α := fun s => (Result.ok a, s)

/-- Appends one event to the log. -/
def emit (e : Event) : Tool Unit := fun s => (Result.ok (), { s with log := s.log ++ [e] })

/-! ## The `Tool` base class -/

/-- Modelled from the spec: `Tool::fail(message, error)` is not in `CBLiteTool.cc`.
An operation failure prints its message, with the underlying error if there is one,
and then raises the operation-failure signal `fail_error`. -/
def fail {α : Type} (msg : String) (err : Option C4Error) : Tool α := fun s =>
  (Result.fail_error, { s with log := s.log ++ [Event.failed msg err] })

/-- Modelled from the spec: `Tool::fail()` without a message is not in `CBLiteTool.cc`.
It raises `fail_error` after the caller has printed what went wrong. -/
def failNoMessage {α : Type} : Tool α := fun s => (Result.fail_error, s)

/-- Modelled from the spec: `Tool::failMisuse(message)` is not in `CBLiteTool.cc`.
A usage error prints its message and raises `fail_error`, of which it is a subtype. -/
def failMisuse {α : Type} (msg : String) : Tool α := fun s =>
  (Result.fail_error, { s with log := s.log ++ [Event.failedMisuse msg] })

/-- Modelled from the spec: `Tool::hasArgs()` is not in `CBLiteTool.cc`.
It reports whether any token remains. -/
def hasArgs : Tool Bool := fun s => (Result.ok (!s._args.isEmpty), s)

/-- Modelled from the spec: `Tool::nextArg(description)` is not in `CBLiteTool.cc`.
It returns the next unconsumed token, or fails with a usage error naming
`description` if none remains. -/
def nextArg (what : String) : Tool String := fun s =>
  match s._args with
  | [] => failMisuse ("Missing argument: expected " ++ what) s
  | a :: rest => (Result.ok a, { s with _args := rest })

/-- Modelled from the spec: `Tool::endOfArgs()` is not in `CBLiteTool.cc`.
It fails with a usage error if tokens remain. -/
def endOfArgs : Tool Unit := fun s =>
  match s._args with
  | [] => (Result.ok (), s)
  | a :: _ => failMisuse ("Unexpected extra arguments, starting with " ++ a) s

/-- Modelled from the spec: `Tool::processFlag(name, table)` is not in `CBLiteTool.cc`.
It looks `name` up in `table` by exact string match and invokes the first matching
action; it performs no action if there is none.  The actions run on a state `σ`,
the tool together with the local variables they capture by reference. -/
def processFlag {σ : Type} (flag : String) :
    List (String × (σ → Result Unit × σ)) → σ → Result Bool × σ
  | [], s => (Result.ok false, s)
  | spec :: specs, s =>
    if flag = spec.1 then
      match spec.2 s with
      | (Result.ok _, s1) => (Result.ok true, s1)
      | (Result.exit_error, s1) => (Result.exit_error, s1)
      | (Result.fail_error, s1) => (Result.fail_error, s1)
      | (Result.error w, s1) => (Result.error w, s1)
      | (Result.exited n, s1) => (Result.exited n, s1)
      | (Result.starved, s1) => (Result.starved, s1)
    else processFlag flag specs s

/-- Modelled from the spec: `Tool::processFlags(table)` is not in `CBLiteTool.cc`.
It repeatedly peeks the next token; if it exactly matches a key of `table` it
consumes it and invokes the bound action, then repeats; it stops at the first token
that is not a recognised flag, leaving it for the caller, or when the input is
exhausted.  The first argument after the table is the argument cursor: the tokens
still to be looked at, which are written back to `_args` around each action. -/
def processFlagsFrom (specs : List (String × Tool Unit)) : List String → Tool Unit
  | [], s => (Result.ok (), { s with _args := [] })
  | flag :: rest, s =>
    match processFlag flag specs { s with _args := rest } with
    | (Result.ok true, s1) => processFlagsFrom specs rest { s1 with _args := rest }
    | (Result.ok false, _) => (Result.ok (), { s with _args := flag :: rest })
    | (Result.exit_error, s1) => (Result.exit_error, s1)
    | (Result.fail_error, s1) => (Result.fail_error, s1)
    | (Result.error w, s1) => (Result.error w, s1)
    | (Result.exited n, s1) => (Result.exited n, s1)
    | (Result.starved, s1) => (Result.starved, s1)

/-- Modelled from the spec: `Tool::processFlags(table)`, run on the argument cursor. -/
def processFlags (specs : List (String × Tool Unit)) : Tool Unit := fun s =>
  processFlagsFrom specs s._args s

instance : Monad Tool where
  pure := Tool.pure
  bind := Tool.bind

/-! ## Library functions used by `CBLiteTool.cc` -/

/-- The value `std::string::npos` (`size_t` is 64 bits wide). -/
def npos : Nat := 2 ^ 64 - 1

/-- The call `str.find(c)` of `std::string`: the index of the first `c`, or `npos`.
`FilePath::kSeparator`, one character long, is searched for in the same way. -/
def find (str : String) (c : Char) : Nat :=
  if c ∈ str.toList then str.toList.indexOf c else npos

/-- The C library's `isxdigit` on a character. -/
def isxdigit (c : Char) : Bool :=
  (48 ≤ c.toNat && c.toNat ≤ 57) || (97 ≤ c.toNat && c.toNat ≤ 102)
    || (65 ≤ c.toNat && c.toNat ≤ 70)

/-- The BSD library's `digittoint`: the value of a decimal or hexadecimal digit, in
either case, and 0 for every other character. -/
def digittoint (c : Char) : Nat :=
  if 48 ≤ c.toNat ∧ c.toNat ≤ 57 then c.toNat - 48
  else if 97 ≤ c.toNat ∧ c.toNat ≤ 102 then c.toNat - 87
  else if 65 ≤ c.toNat ∧ c.toNat ≤ 70 then c.toNat - 55
  else 0

/-- The engine's `hasSuffix(str, suffix)`. -/
def hasSuffix (str suffix : String) : Bool := suffix.toList.isSuffixOf str.toList

/-! ## `CBLiteTool.cc` -/

/-- `CBLiteTool::usage`: prints the usage text. -/
def usage : Tool Unit := emit Event.usageText

/-- `CBLiteTool::displayVersion`: prints the version and calls `exit(0)`. -/
def displayVersion (env : Env) : Tool Unit := fun s =>
  (Result.exited 0,
    { s with log := s.log ++ [Event.version ("Couchbase Lite Core " ++ env.c4_getVersion ++ "\n")] })

/-- `CBLiteTool::isDatabasePath`. -/
def isDatabasePath (env : Env) (path : String) : Bool :=
  hasSuffix (env.fileOrDirName path) kC4DatabaseFilenameExtension

/-- The `for` loop of `setHexKey`, with `n` iterations still to run: `src` is the
index into `str`, and `*dst++` writes the byte at index `src / 2`.  It returns
`false` from the iteration that meets a character that is not a hex digit. -/
def setHexKeyLoop (str : List Char) : Nat → Nat → List Nat → Bool × List Nat
  | 0, _, bytes => (true, bytes)
  | n + 1, src, bytes =>
    if !isxdigit (str.getD src ' ') || !isxdigit (str.getD (src + 1) ' ') then
      (false, bytes)
    else
      setHexKeyLoop str n (src + 2)
        (bytes.set (src / 2)
          ((16 * digittoint (str.getD src ' ') + digittoint (str.getD (src + 1) ' ')) % 256))

/-- The static function `setHexKey(key, str)`, which exists in enterprise builds:
the returned pair is its `bool` result and the key as it leaves it.  A character
of the `std::string` is a `Char` here, and `str.size()` is the number of them. -/
def setHexKey (key : C4EncryptionKey) (str : String) : Bool × C4EncryptionKey :=
  if str.length ≠ 2 * kC4EncryptionKeySizeAES256 then (false, key)
  else
    match setHexKeyLoop str.toList kC4EncryptionKeySizeAES256 0 key.bytes with
    | (false, bytes) => (false, { key with bytes := bytes })
    | (true, bytes) => (true, ⟨C4EncryptionAlgorithm.kC4EncryptionAES256, bytes⟩)

/-- The condition `!setHexKey(&key, password) && !c4key_setPassword(&key, password, AES256)`
of `openDatabase`, negated: whether a key could be set from `password`, and the key
afterwards.  `c4key_setPassword` runs only if `setHexKey` returned `false`. -/
def deriveKey (env : Env) (key : C4EncryptionKey) (password : String) :
    Bool × C4EncryptionKey :=
  match setHexKey key password with
  | (true, key1) => (true, key1)
  | (false, key1) => env.c4key_setPassword key1 password

/-- The constant `kEncryptedDBError` of `openDatabase`. -/
def kEncryptedDBError (env : Env) : C4Error := ⟨env.LiteCoreDomain, env.kC4ErrorNotADatabaseFile⟩

/-- The call `_db = c4db_open(path, &config, &err)`: the handle member is overwritten
with the result (null on failure) and `err` is written on failure only. -/
def callOpen (env : Env) (path : String) (config : C4DatabaseConfig) (err : Option C4Error)
    (s : CBLiteTool) : Option C4Error × CBLiteTool :=
  match env.c4db_open path config with
  | Except.ok db =>
    (err, { s with _db := some db, log := s.log ++ [Event.c4db_open path config] })
  | Except.error e =>
    (some e, { s with _db := none, log := s.log ++ [Event.c4db_open path config] })

/-- The `while (!_db && err == kEncryptedDBError)` loop of `openDatabase` followed by
its final `if (!_db) fail(...)`.  The first argument is the list of responses the
password prompt will still give; `err` is `none` while the variable is unset. -/
def openLoop (env : Env) (path : String) :
    List String → C4DatabaseConfig → Option C4Error → Tool Unit
  | pws, config, err, s =>
    if s._db.isNone && err == some (kEncryptedDBError env) then
      if env.COUCHBASE_ENTERPRISE then
        if !s._interactive && !s._dbNeedsPassword then
          fail "Database is encrypted (use `--encrypted` flag to get a password prompt)" none s
        else
          let prompt :=
            if config.encryptionKey.algorithm ≠ C4EncryptionAlgorithm.kC4EncryptionNone then
              "Sorry, try again: "
            else "Database password or hex key:"
          match pws with
          | [] => (Result.starved, s)
          | password :: rest =>
            -- `readPassword(prompt)` returns `password`; `password.empty()` is the test below
            let s1 := { s with passwords := rest,
                               log := s.log ++ [Event.readPassword prompt password] }
            if password = "" then (Result.exited 1, s1)
            else
              match deriveKey env config.encryptionKey password with
              | (false, key) =>
                openLoop env path rest { config with encryptionKey := key } err
                  { s1 with log := s1.log ++ [Event.cout "Error: Couldn't derive key from password\n"] }
              | (true, key) =>
                let config1 := { config with encryptionKey := key }
                let r := callOpen env path config1 err s1
                openLoop env path rest config1 r.1 r.2
      else
        fail "Database is encrypted (Enterprise Edition is required to open encrypted databases)"
          none s
    else if s._db.isNone then fail ("Couldn't open database " ++ path) err s
    else (Result.ok (), s)

/-- `CBLiteTool::openDatabase`. -/
def openDatabase (env : Env) (path : String) : Tool Unit := fun s =>
  let path := env.fixUpPath path
  if !isDatabasePath env path then
    fail "Database filename must have a '.cblite2' extension" none s
  else
    let config : C4DatabaseConfig := ⟨s._dbFlags, zeroKey⟩
    if !s._dbNeedsPassword then
      let r := callOpen env path config none s
      openLoop env path r.2.passwords config r.1 r.2
    else
      openLoop env path s.passwords config (some (kEncryptedDBError env)) s

/-- `CBLiteTool::openDatabaseFromNextArg`. -/
def openDatabaseFromNextArg (env : Env) : Tool Unit := fun s =>
  if s._db.isNone then
    (do
      let path ← nextArg "database path"
      openDatabase env path) s
  else (Result.ok (), s)

/-- `CBLiteTool::openWriteableDatabaseFromNextArg`. -/
def openWriteableDatabaseFromNextArg (env : Env) : Tool Unit := fun s =>
  if s._db.isSome then
    if s._dbFlags &&& kC4DB_ReadOnly ≠ 0 then
      fail "Database was opened read-only; run `cblite --writeable` to allow writes" none s
    else (Result.ok (), s)
  else
    openDatabaseFromNextArg env { s with _dbFlags := s._dbFlags &&& bitNot32 kC4DB_ReadOnly }

/-- `CBLiteTool::quitCommand`: closes the handle if there is one and calls `exit(0)`. -/
def quitCommand : Tool Unit := fun s =>
  match s._db with
  | some db => (Result.exited 0, { s with log := s.log ++ [Event.c4db_close db] })
  | none => (Result.exited 0, s)

/-- The table of `subcommand`.  Its actions run on the local variable `factory` and
the tool; `decrypt` and `encrypt` are compiled in enterprise builds only. -/
def subcommandTable (env : Env) :
    List (String × (Option Factory × CBLiteTool → Result Unit × (Option Factory × CBLiteTool))) :=
  let set := fun (f : Factory) (st : Option Factory × CBLiteTool) =>
    ((Result.ok () : Result Unit), (some f, st.2))
  [ ("cat", set Factory.newCatCommand),
    ("compact", set Factory.newCompactCommand),
    ("cp", set Factory.newCpCommand),
    ("export", set Factory.newExportCommand),
    ("file", set Factory.newInfoCommand),
    ("import", set Factory.newImportCommand),
    ("info", set Factory.newInfoCommand),
    ("ls", set Factory.newListCommand),
    ("pull", set Factory.newPullCommand),
    ("push", set Factory.newPushCommand),
    ("put", set Factory.newPutCommand),
    ("query", set Factory.newQueryCommand),
    ("revs", set Factory.newRevsCommand),
    ("rm", set Factory.newRmCommand),
    ("SELECT", set Factory.newSelectCommand),
    ("select", set Factory.newSelectCommand),
    ("sql", set Factory.newSQLCommand),
    ("serve", fun st =>
      if !st.2._interactive then (Result.ok (), (some Factory.newServeCommand, st.2))
      else (Result.ok (), st)),
    ("quit", fun st =>
      if st.2._interactive then ((quitCommand st.2).1, (st.1, (quitCommand st.2).2))
      else (Result.ok (), st)) ]
  ++ (if env.COUCHBASE_ENTERPRISE then
        [ ("decrypt", set Factory.newDecryptCommand),
          ("encrypt", set Factory.newEncryptCommand) ]
      else [])

/-- `CBLiteTool::subcommand`: `none` is the null pointer. -/
def subcommand (env : Env) (name : String) : Tool (Option CBLiteCommand) := fun s =>
  match processFlag name (subcommandTable env) (none, s) with
  | (Result.ok _, (none, s1)) => (Result.ok none, s1)
  | (Result.ok _, (some factory, s1)) => (Result.ok (some ⟨factory, name⟩), s1)
  | (Result.exit_error, (_, s1)) => (Result.exit_error, s1)
  | (Result.fail_error, (_, s1)) => (Result.fail_error, s1)
  | (Result.error w, (_, s1)) => (Result.error w, s1)
  | (Result.exited n, (_, s1)) => (Result.exited n, s1)
  | (Result.starved, (_, s1)) => (Result.starved, s1)

/-- `CBLiteTool::helpCommand`. -/
def helpCommand (env : Env) : Tool Unit := fun s =>
  if !s._args.isEmpty then
    (do
      let currentCommand ← nextArg "subcommand"
      let subcommandInstance ← subcommand env currentCommand
      match subcommandInstance with
      | some command => emit (Event.commandUsage command.name)
      | none => emit (Event.cerr ("Unknown subcommand '" ++ currentCommand ++ "'\n"))) s
  else if s._interactive then emit Event.subcommandList s
  else usage s

/-- The body of the `try` block of `runInteractively` after `readLine` has put the
tokens of a line into the argument cursor. -/
def runLine (env : Env) : Tool Unit := do
  let cmd ← nextArg "subcommand"
  if cmd = "help" then
    helpCommand env
  else
    let subcommandInstance ← subcommand env cmd
    match subcommandInstance with
    | some command => env.runSubcommand command
    | none =>
      emit (Event.cerr
        ("Unknown subcommand '" ++ cmd ++ "'; type 'help' for a list of commands.\n"))

/-- The `while(true)` loop of `runInteractively`.  The first argument lists the token
lists of the lines that `readLine` will deliver; at its end `readLine` returns
`false`.  `exit_error` and `fail_error` are caught; nothing else is. -/
def interactiveLoop (env : Env) : List (List String) → Tool Unit
  | [], s => (Result.ok (), { s with log := s.log ++ [Event.readLine "(cblite) " none] })
  | line :: rest, s =>
    match runLine env
        { s with _args := line, log := s.log ++ [Event.readLine "(cblite) " (some line)] } with
    | (Result.ok _, s1) => interactiveLoop env rest s1
    | (Result.exit_error, s1) => interactiveLoop env rest s1
    | (Result.fail_error, s1) => interactiveLoop env rest s1
    | (Result.error w, s1) => (Result.error w, s1)
    | (Result.exited n, s1) => (Result.exited n, s1)
    | (Result.starved, s1) => (Result.starved, s1)

/-- `CBLiteTool::runInteractively`, on the lines the terminal will deliver. -/
def runInteractively (env : Env) (lines : List (List String)) : Tool Unit := fun s =>
  let s1 := { s with _interactive := true }
  let mode := if s1._dbFlags &&& kC4DB_ReadOnly ≠ 0 then "read-only" else "writeable"
  interactiveLoop env lines
    { s1 with log := s1.log ++
        [Event.cout ("Opened " ++ mode ++ " database " ++ env.c4db_getPath s1._db ++ "\n")] }

/-- `CBLiteTool::shell`. -/
def shell (env : Env) (lines : List (List String)) : Tool Unit := do
  openDatabaseFromNextArg env
  endOfArgs
  runInteractively env lines

/-- The flag table of `run`. -/
def globalFlags (env : Env) : List (String × Tool Unit) :=
  [ ("--create", fun s =>
      (Result.ok (),
        { s with _dbFlags := (s._dbFlags ||| kC4DB_Create) &&& bitNot32 kC4DB_ReadOnly })),
    ("--writeable", fun s =>
      (Result.ok (), { s with _dbFlags := s._dbFlags &&& bitNot32 kC4DB_ReadOnly })),
    ("--encrypted", fun s => (Result.ok (), { s with _dbNeedsPassword := true })),
    ("--version", displayVersion env),
    ("-v", displayVersion env) ]

/-- The failure branch of `run` for a first token that is neither a database path,
nor `help`, nor a subcommand name. -/
def reportUnknown (env : Env) (cmd : String) : Tool Unit :=
  if find cmd env.kSeparator ≠ npos || find cmd '.' ≠ 0 || cmd.length > 10 then
    fail ("Not a valid database path (must end in " ++ kC4DatabaseFilenameExtension
            ++ ") or subcommand name: " ++ cmd) none
  else
    failMisuse ("Unknown subcommand '" ++ cmd ++ "'")

/-- `CBLiteTool::run`, on the lines the terminal will deliver to the shell.  The call
`c4log_setCallbackLevel(kC4LogWarning)` configures the engine's logging and is left
out. -/
def run (env : Env) (lines : List (List String)) : Tool Nat := do
  processFlags (globalFlags env)
  if !(← hasArgs) then
    emit (Event.cerr ("cblite: Couchbase Lite / LiteCore database multi-tool\n"
      ++ "Missing subcommand or database path.\n"
      ++ "For a list of subcommands, run cblite help.\n"
      ++ "To start the interactive mode, run cblite DBPATH\n"))
    failNoMessage
  let cmd ← nextArg "subcommand or database path"
  if isDatabasePath env cmd then
    endOfArgs
    fun s => (Result.ok (), { s with _interactive := true })
    openDatabase env cmd
    runInteractively env lines
  else
    if cmd = "help" then
      helpCommand env
    else
      let subcommandInstance ← subcommand env cmd
      match subcommandInstance with
      | some command => env.runSubcommand command
      | none => reportUnknown env cmd
  return 0

/-! ## Reading the log -/

/-- The number of calls to the engine's open operation recorded in a log. -/
def openCount (log : List Event) : Nat :=
  log.countP fun e =>
    match e with
    | Event.c4db_open _ _ => true
    | _ => false

/-- The number of times a log records that no key could be derived from a password. -/
def deriveFailureCount (log : List Event) : Nat :=
  log.count (Event.cout "Error: Couldn't derive key from password\n")

/-! ## Environments and states on which the model is evaluated -/

/-- The last component of a path: the characters after the last separator. -/
def lastComponent (sep : Char) (path : String) : String :=
  String.mk (path.toList.reverse.takeWhile (fun c => c ≠ sep)).reverse

/-- An example environment: an enterprise build on a POSIX system.  The engine has
no `missing.cblite2`, opens `plain.cblite2` without a key, and opens every other
database with the key derived from a six-letter password; passwords shorter than
four characters give no key.  The subcommand `cat` ends with `exit_error`, `rm` with
`fail_error`, `sql` with another exception, and the others return. -/
def exampleEnv : Env where
  COUCHBASE_ENTERPRISE := true
  kSeparator := '/'
  LiteCoreDomain := 1
  kC4ErrorNotADatabaseFile := 29
  fileOrDirName := lastComponent '/'
  fixUpPath := fun p => p
  c4_getVersion := "3.0"
  c4db_getPath := fun _ => "db"
  c4db_open := fun path config =>
    if path = "missing.cblite2" then Except.error ⟨1, 7⟩
    else if path = "plain.cblite2" then
      if config.encryptionKey.algorithm = C4EncryptionAlgorithm.kC4EncryptionNone then Except.ok 2
      else Except.error ⟨1, 29⟩
    else if config.encryptionKey
        = ⟨C4EncryptionAlgorithm.kC4EncryptionAES256, List.replicate 32 6⟩ then Except.ok 1
    else Except.error ⟨1, 29⟩
  c4key_setPassword := fun key pw =>
    if pw.length < 4 then
      (false, { key with algorithm := C4EncryptionAlgorithm.kC4EncryptionNone })
    else (true, ⟨C4EncryptionAlgorithm.kC4EncryptionAES256, List.replicate 32 (pw.length % 256)⟩)
  runSubcommand := fun command s =>
    if command.name = "cat" then (Result.exit_error, s)
    else if command.name = "rm" then (Result.fail_error, s)
    else if command.name = "sql" then (Result.error "std::bad_alloc", s)
    else (Result.ok (), s)

/-- The example environment as a community build: `COUCHBASE_ENTERPRISE` is not
defined. -/
def communityEnv : Env := { exampleEnv with COUCHBASE_ENTERPRISE := false }

/-- The example environment with subcommands that use the tool's own operations, as
the subcommands of the tool do: `ls` starts with `openDatabaseFromNextArg` and `put`
with `openWriteableDatabaseFromNextArg`; the others are those of `exampleEnv`. -/
def shellEnv : Env :=
  { exampleEnv with
    runSubcommand := fun command s =>
      if command.name = "ls" then openDatabaseFromNextArg exampleEnv s
      else if command.name = "put" then openWriteableDatabaseFromNextArg exampleEnv s
      else exampleEnv.runSubcommand command s }

/-- A tool as it is at process start: no handle, flags read-only and no-upgrade
(`0x22`), not interactive, with the given arguments and password responses. -/
def startTool (args : List String) (passwords : List String) : CBLiteTool :=
  ⟨args, none, 34, false, false, passwords, []⟩

/-! ## Lemmas shared by the proofs -/

theorem bind_apply {α β : Type} (m : Tool α) (f : α → Tool β) (s : CBLiteTool) :
    (m >>= f) s = Tool.bind m f s := rfl

theorem pure_apply {α : Type} (a : α) (s : CBLiteTool) :
    (Pure.pure a : Tool α) s = (Result.ok a, s) := rfl

/-! ## Global flags -/

theorem testBit_bitNot32_readOnly (i : Nat) :
    (bitNot32 kC4DB_ReadOnly).testBit i = (decide (i < 32) && decide (i ≠ 1)) := by
  by_cases h : i < 32
  · interval_cases i <;> rfl
  · have h32 : 32 ≤ i := Nat.le_of_not_lt h
    have : bitNot32 kC4DB_ReadOnly < 2 ^ i :=
      lt_of_lt_of_le (by decide : bitNot32 kC4DB_ReadOnly < 2 ^ 32) (Nat.pow_le_pow_right (by decide) h32)
    simp [Nat.testBit_lt_two_pow this, h]

theorem testBit_create (i : Nat) : kC4DB_Create.testBit i = decide (i = 0) := by
  cases i with
  | zero => rfl
  | succ n => simp [kC4DB_Create, Nat.testBit_succ]

theorem and_not_readOnly_idem (f : Nat) :
    (f &&& bitNot32 kC4DB_ReadOnly) &&& bitNot32 kC4DB_ReadOnly = f &&& bitNot32 kC4DB_ReadOnly := by
  rw [Nat.and_assoc, Nat.and_self]

theorem create_idem (f : Nat) :
    (((f ||| kC4DB_Create) &&& bitNot32 kC4DB_ReadOnly) ||| kC4DB_Create) &&& bitNot32 kC4DB_ReadOnly
      = (f ||| kC4DB_Create) &&& bitNot32 kC4DB_ReadOnly := by
  apply Nat.eq_of_testBit_eq
  intro i
  simp only [Nat.testBit_and, Nat.testBit_or, testBit_bitNot32_readOnly, testBit_create]
  cases f.testBit i <;> by_cases h0 : i = 0 <;> by_cases h1 : i = 1 <;> by_cases h2 : i < 32 <;>
    simp [h0, h1, h2]

theorem create_after_writeable (f : Nat) :
    ((f &&& bitNot32 kC4DB_ReadOnly) ||| kC4DB_Create) &&& bitNot32 kC4DB_ReadOnly
      = (f ||| kC4DB_Create) &&& bitNot32 kC4DB_ReadOnly := by
  apply Nat.eq_of_testBit_eq
  intro i
  simp only [Nat.testBit_and, Nat.testBit_or, testBit_bitNot32_readOnly, testBit_create]
  cases f.testBit i <;> by_cases h0 : i = 0 <;> by_cases h1 : i = 1 <;> by_cases h2 : i < 32 <;>
    simp [h0, h1, h2]

theorem processFlagsFrom_args (specs : List (String × Tool Unit)) (l a : List String)
    (s : CBLiteTool) :
    processFlagsFrom specs l { s with _args := a } = processFlagsFrom specs l s := by
  cases l <;> rfl

theorem processFlag_create (env : Env) (s : CBLiteTool) :
    processFlag "--create" (globalFlags env) s
      = (Result.ok true,
          { s with _dbFlags := (s._dbFlags ||| kC4DB_Create) &&& bitNot32 kC4DB_ReadOnly }) := by
  simp [processFlag, globalFlags]

theorem processFlag_writeable (env : Env) (s : CBLiteTool) :
    processFlag "--writeable" (globalFlags env) s
      = (Result.ok true, { s with _dbFlags := s._dbFlags &&& bitNot32 kC4DB_ReadOnly }) := by
  simp [processFlag, globalFlags]

theorem processFlag_encrypted (env : Env) (s : CBLiteTool) :
    processFlag "--encrypted" (globalFlags env) s
      = (Result.ok true, { s with _dbNeedsPassword := true }) := by
  simp [processFlag, globalFlags]

/-- Closed form of the state after a run of the three state-setting flags. -/
theorem processFlagsFrom_stateFlags (env : Env) (rest : List String) :
    ∀ (fs : List String) (s : CBLiteTool),
      (∀ x ∈ fs, x ∈ ["--create", "--writeable", "--encrypted"]) →
      processFlagsFrom (globalFlags env) (fs ++ rest) s
        = processFlagsFrom (globalFlags env) rest
            { s with
              _dbFlags :=
                if "--create" ∈ fs then (s._dbFlags ||| kC4DB_Create) &&& bitNot32 kC4DB_ReadOnly
                else if "--writeable" ∈ fs then s._dbFlags &&& bitNot32 kC4DB_ReadOnly
                else s._dbFlags,
              _dbNeedsPassword := s._dbNeedsPassword || decide ("--encrypted" ∈ fs) } := by
  intro fs
  induction fs with
  | nil => intro s _; simp
  | cons x xs ih =>
    intro s h
    have hx : x ∈ ["--create", "--writeable", "--encrypted"] := h x (List.mem_cons_self _ _)
    have hxs : ∀ y ∈ xs, y ∈ ["--create", "--writeable", "--encrypted"] :=
      fun y hy => h y (List.mem_cons_of_mem _ hy)
    simp only [List.mem_cons, List.mem_singleton, List.not_mem_nil, or_false] at hx
    rcases hx with rfl | rfl | rfl
    · rw [List.cons_append]
      simp only [processFlagsFrom, processFlag_create]
      rw [ih _ hxs]
      conv_lhs => rw [← processFlagsFrom_args _ _ []]
      conv_rhs => rw [← processFlagsFrom_args _ _ []]
      by_cases hc : "--create" ∈ xs <;> by_cases hw : "--writeable" ∈ xs <;>
        simp [hc, hw, create_idem, and_not_readOnly_idem]
    · rw [List.cons_append]
      simp only [processFlagsFrom, processFlag_writeable]
      rw [ih _ hxs]
      conv_lhs => rw [← processFlagsFrom_args _ _ []]
      conv_rhs => rw [← processFlagsFrom_args _ _ []]
      by_cases hc : "--create" ∈ xs <;> by_cases hw : "--writeable" ∈ xs <;>
        simp [hc, hw, create_after_writeable, and_not_readOnly_idem]
    · rw [List.cons_append]
      simp only [processFlagsFrom, processFlag_encrypted]
      rw [ih _ hxs]
      conv_lhs => rw [← processFlagsFrom_args _ _ []]
      conv_rhs => rw [← processFlagsFrom_args _ _ []]
      by_cases hc : "--create" ∈ xs <;> by_cases hw : "--writeable" ∈ xs <;>
        simp [hc, hw]

/-- C8: effect of the global flags of `run` on every prior state (with 32-bit flags).
`--create` sets the create bit and clears the read-only bit, leaving every other
flag bit and every other member unchanged; `--writeable` clears the read-only bit
and changes nothing else; `--encrypted` sets needs-password and changes nothing
else.  Consequently two runs of these three flags with the same members, whatever
their order and repetitions, leave `processFlags` in the same state and with the
same result, whatever follows them. -/
theorem global_flags_effect (env : Env) (s : CBLiteTool) (hs : s._dbFlags < 2 ^ 32) :
    (∃ f, processFlag "--create" (globalFlags env) s = (Result.ok true, { s with _dbFlags := f })
        ∧ f.testBit 0 = true ∧ f.testBit 1 = false
        ∧ ∀ i, 2 ≤ i → f.testBit i = s._dbFlags.testBit i)
    ∧ (∃ f, processFlag "--writeable" (globalFlags env) s
          = (Result.ok true, { s with _dbFlags := f })
        ∧ f.testBit 1 = false ∧ ∀ i, i ≠ 1 → f.testBit i = s._dbFlags.testBit i)
    ∧ processFlag "--encrypted" (globalFlags env) s
        = (Result.ok true, { s with _dbNeedsPassword := true })
    ∧ ∀ fs1 fs2 rest : List String,
        (∀ x ∈ fs1, x ∈ ["--create", "--writeable", "--encrypted"]) →
        (∀ x ∈ fs2, x ∈ ["--create", "--writeable", "--encrypted"]) →
        (∀ x, x ∈ fs1 ↔ x ∈ fs2) →
        processFlags (globalFlags env) { s with _args := fs1 ++ rest }
          = processFlags (globalFlags env) { s with _args := fs2 ++ rest } := by
  have hhigh : ∀ i, 32 ≤ i → s._dbFlags.testBit i = false := fun i hi =>
    Nat.testBit_lt_two_pow (lt_of_lt_of_le hs (Nat.pow_le_pow_right (by decide) hi))
  refine ⟨⟨_, processFlag_create env s, ?_, ?_, ?_⟩, ⟨_, processFlag_writeable env s, ?_, ?_⟩,
    processFlag_encrypted env s, ?_⟩
  · simp only [Nat.testBit_and, Nat.testBit_or, testBit_bitNot32_readOnly, testBit_create]
    simp
  · simp only [Nat.testBit_and, Nat.testBit_or, testBit_bitNot32_readOnly, testBit_create]
    simp
  · intro i hi
    by_cases h32 : i < 32
    · have h1 : i ≠ 1 := by omega
      have h0 : i ≠ 0 := by omega
      simp [Nat.testBit_and, Nat.testBit_or, testBit_bitNot32_readOnly, testBit_create, h32, h1, h0]
    · have := hhigh i (Nat.le_of_not_lt h32)
      simp [Nat.testBit_and, Nat.testBit_or, testBit_bitNot32_readOnly, testBit_create, h32, this]
  · simp only [Nat.testBit_and, testBit_bitNot32_readOnly]
    simp
  · intro i hi
    by_cases h32 : i < 32
    · simp [Nat.testBit_and, testBit_bitNot32_readOnly, h32, hi]
    · have := hhigh i (Nat.le_of_not_lt h32)
      simp [Nat.testBit_and, testBit_bitNot32_readOnly, h32, this]
  · intro fs1 fs2 rest h1 h2 hiff
    simp only [processFlags]
    rw [processFlagsFrom_stateFlags env rest fs1 _ h1, processFlagsFrom_stateFlags env rest fs2 _ h2]
    simp only [hiff]
    conv_lhs => rw [← processFlagsFrom_args _ _ []]
    conv_rhs => rw [← processFlagsFrom_args _ _ []]

/-- C8 witness: the start state of the tool has 32-bit flags (`0x22`). -/
theorem global_flags_effect_witness :
    (startTool [] [])._dbFlags < 2 ^ 32
    ∧ processFlag "--encrypted" (globalFlags exampleEnv) (startTool [] [])
        = (Result.ok true, { startTool [] [] with _dbNeedsPassword := true }) :=
  ⟨by decide, (global_flags_effect exampleEnv (startTool [] []) (by decide)).2.2.1⟩

/-! ## The registry -/

/-- The names registered in the table of `subcommand`. -/
theorem subcommandTable_names (env : Env) :
    (subcommandTable env).map Prod.fst
      = ["cat", "compact", "cp", "export", "file", "import", "info", "ls", "pull", "push", "put",
          "query", "revs", "rm", "SELECT", "select", "sql", "serve", "quit"]
        ++ (if env.COUCHBASE_ENTERPRISE then ["decrypt", "encrypt"] else []) := by
  cases h : env.COUCHBASE_ENTERPRISE <;> simp [subcommandTable, h]

theorem processFlag_not_mem {σ : Type} (flag : String) :
    ∀ (specs : List (String × (σ → Result Unit × σ))) (s : σ),
      flag ∉ specs.map Prod.fst → processFlag flag specs s = (Result.ok false, s) := by
  intro specs
  induction specs with
  | nil => intro s _; rfl
  | cons spec specs ih =>
    intro s h
    simp only [List.map_cons, List.mem_cons, not_or] at h
    simp [processFlag, h.1, ih s h.2]

theorem subcommand_not_registered (env : Env) (name : String) (s : CBLiteTool)
    (h : name ∉ (subcommandTable env).map Prod.fst) :
    subcommand env name s = (Result.ok none, s) := by
  simp [subcommand, processFlag_not_mem name _ _ h]

theorem subcommand_serve (env : Env) (s : CBLiteTool) :
    subcommand env "serve" s
      = (Result.ok (if s._interactive then none else some ⟨Factory.newServeCommand, "serve"⟩), s) := by
  cases h : s._interactive <;> simp [subcommand, subcommandTable, processFlag, h]

theorem subcommand_quit (env : Env) (s : CBLiteTool) :
    subcommand env "quit" s
      = if s._interactive then
          (Result.exited 0,
            { s with log := s.log ++ (match s._db with
                                      | some db => [Event.c4db_close db]
                                      | none => []) })
        else (Result.ok none, s) := by
  obtain ⟨a, db, f, np, i, pw, lg⟩ := s
  cases i <;> cases db <;> simp [subcommand, subcommandTable, processFlag, quitCommand]

/-- The factory the table of `subcommand` binds to a name that is registered for both
modes of the session. -/
theorem subcommand_registered (env : Env) (name : String)
    (h : name ∈ (subcommandTable env).map Prod.fst) (hs : name ≠ "serve") (hq : name ≠ "quit") :
    ∃ factory, ∀ s, subcommand env name s = (Result.ok (some ⟨factory, name⟩), s) := by
  rw [subcommandTable_names] at h
  cases he : env.COUCHBASE_ENTERPRISE
  · simp only [he, List.mem_append, List.mem_cons, List.mem_singleton, List.not_mem_nil,
      or_false, if_false, Bool.false_eq_true] at h
    rcases h with rfl | rfl | rfl | rfl | rfl | rfl | rfl | rfl | rfl | rfl | rfl | rfl | rfl
        | rfl | rfl | rfl | rfl | rfl | rfl <;>
      first
        | exact absurd rfl hs
        | exact absurd rfl hq
        | exact ⟨_, fun s => by simp [subcommand, subcommandTable, processFlag, he]; rfl⟩
  · simp only [he, List.mem_append, List.mem_cons, List.mem_singleton, List.not_mem_nil,
      or_false, if_true] at h
    rcases h with (rfl | rfl | rfl | rfl | rfl | rfl | rfl | rfl | rfl | rfl | rfl | rfl | rfl
        | rfl | rfl | rfl | rfl | rfl | rfl) | rfl | rfl <;>
      first
        | exact absurd rfl hs
        | exact absurd rfl hq
        | exact ⟨_, fun s => by simp [subcommand, subcommandTable, processFlag, he]; rfl⟩

/-- C5: the outcome of `subcommand(name)` (a command, no command, or process exit)
is the same in any two sessions with the same `interactive` flag, whatever their
handle, open flags and needs-password.  `serve` gives a command exactly when the
session is not interactive.  `quit` in an interactive session closes the open handle,
if any, and exits with status 0; otherwise it gives no command and changes nothing.
Every other registered name gives a command bearing that name in both modes and
changes nothing, and a name that is not exactly a registered name gives no command
and changes nothing.  The registered names are those of the table, with `decrypt`
and `encrypt` in enterprise builds only. -/
theorem subcommand_resolution (env : Env) (name : String) (s : CBLiteTool) :
    (∀ s2 : CBLiteTool, s2._interactive = s._interactive →
        (subcommand env name s2).1 = (subcommand env name s).1)
    ∧ subcommand env "serve" s
        = (Result.ok (if s._interactive then none else some ⟨Factory.newServeCommand, "serve"⟩), s)
    ∧ subcommand env "quit" s
        = (if s._interactive then
            (Result.exited 0,
              { s with log := s.log ++ (match s._db with
                                        | some db => [Event.c4db_close db]
                                        | none => []) })
          else (Result.ok none, s))
    ∧ (name ∈ (subcommandTable env).map Prod.fst → name ≠ "serve" → name ≠ "quit" →
        ∃ factory, ∀ s3 : CBLiteTool,
          subcommand env name s3 = (Result.ok (some ⟨factory, name⟩), s3))
    ∧ (name ∉ (subcommandTable env).map Prod.fst → subcommand env name s = (Result.ok none, s))
    ∧ (subcommandTable env).map Prod.fst
        = ["cat", "compact", "cp", "export", "file", "import", "info", "ls", "pull", "push",
            "put", "query", "revs", "rm", "SELECT", "select", "sql", "serve", "quit"]
          ++ (if env.COUCHBASE_ENTERPRISE then ["decrypt", "encrypt"] else []) := by
  refine ⟨?_, subcommand_serve env s, subcommand_quit env s,
    subcommand_registered env name, subcommand_not_registered env name s,
    subcommandTable_names env⟩
  intro s2 h2
  by_cases hs : name = "serve"
  · subst hs
    rw [subcommand_serve, subcommand_serve, h2]
  by_cases hq : name = "quit"
  · subst hq
    rw [subcommand_quit, subcommand_quit, h2]
    cases s._interactive <;> simp
  by_cases hm : name ∈ (subcommandTable env).map Prod.fst
  · obtain ⟨f, hf⟩ := subcommand_registered env name hm hs hq
    rw [hf, hf]
  · rw [subcommand_not_registered env name s2 hm, subcommand_not_registered env name s hm]

/-- C5 witness: `ls` is a registered name other than `serve` and `quit`, and `Quit` is
not a registered name. -/
theorem subcommand_resolution_witness :
    (∃ factory, ∀ s3 : CBLiteTool,
        subcommand exampleEnv "ls" s3 = (Result.ok (some ⟨factory, "ls"⟩), s3))
    ∧ subcommand exampleEnv "Quit" (startTool [] []) = (Result.ok none, startTool [] []) :=
  ⟨(subcommand_resolution exampleEnv "ls" (startTool [] [])).2.2.2.1
      (by rw [subcommandTable_names]; simp) (by decide) (by decide),
    (subcommand_resolution exampleEnv "Quit" (startTool [] [])).2.2.2.2.1
      (by rw [subcommandTable_names]; simp [exampleEnv])⟩

/-! ## One-shot dispatch -/

theorem processFlag_globalFlags_frame (env : Env) (flag : String) (s s1 : CBLiteTool) (b : Bool)
    (h : processFlag flag (globalFlags env) s = (Result.ok b, s1)) :
    s1._db = s._db ∧ s1._interactive = s._interactive ∧ s1.log = s.log
      ∧ s1.passwords = s.passwords := by
  simp only [processFlag, globalFlags, displayVersion] at h
  split_ifs at h <;> simp at h <;> (obtain ⟨_, rfl⟩ := h; simp)

theorem processFlagsFrom_globalFlags_frame (env : Env) :
    ∀ (l : List String) (s s1 : CBLiteTool),
      processFlagsFrom (globalFlags env) l s = (Result.ok (), s1) →
      s1._db = s._db ∧ s1._interactive = s._interactive ∧ s1.log = s.log
        ∧ s1.passwords = s.passwords := by
  intro l
  induction l with
  | nil =>
    intro s s1 h
    simp [processFlagsFrom] at h
    subst h
    simp
  | cons flag rest ih =>
    intro s s1 h
    rw [processFlagsFrom] at h
    split at h
    · rename_i s2 h2
      have f2 := processFlag_globalFlags_frame env flag _ _ _ h2
      have f1 := ih _ _ h
      simp at f1 f2
      simp [f1, f2]
    · simp at h
      subst h
      simp
    all_goals simp at h

/-- C1: at the failing input.  In the example environment `run` on the single
token `nosuchcmd` (nine characters, no separator, no dot) fails with the message
`Not a valid database path ... or subcommand name`, not with the usage error
`Unknown subcommand`; and in every environment and state the failure branch of
`run` reports `nosuchcmd` that way, because `cmd.find('.')` is `npos`, which is not
zero. -/
theorem run_nosuchcmd_not_a_valid_path :
    run exampleEnv [] (startTool ["nosuchcmd"] [])
        = (Result.fail_error,
            { startTool [] [] with
              log := [Event.failed
                "Not a valid database path (must end in .cblite2) or subcommand name: nosuchcmd"
                none] })
    ∧ ∀ (env : Env) (s : CBLiteTool),
        reportUnknown env "nosuchcmd" s
          = fail "Not a valid database path (must end in .cblite2) or subcommand name: nosuchcmd"
              none s := by
  constructor
  · decide
  · intro env s
    have h : find "nosuchcmd" '.' = npos := by decide
    simp [reportUnknown, h, npos, kC4DatabaseFilenameExtension]

/-- C4: when flag processing returns and leaves a database path followed by at
least one more token, `run` fails with the usage error of `endOfArgs` about the
extra arguments.  The state it fails in is the state after flag processing with the
path consumed and that one message logged: it is not marked interactive, holds the
handle it had, and its log has no open attempt, no line read and no shell banner. -/
theorem run_database_path_with_extra_args (env : Env) (lines : List (List String))
    (s s1 : CBLiteTool) (path extra : String) (rest : List String)
    (hflags : processFlags (globalFlags env) s = (Result.ok (), s1))
    (hargs : s1._args = path :: extra :: rest)
    (hpath : isDatabasePath env path = true) :
    run env lines s
        = (Result.fail_error,
            { s1 with
              _args := extra :: rest,
              log := s.log ++
                [Event.failedMisuse ("Unexpected extra arguments, starting with " ++ extra)] })
    ∧ s1._interactive = s._interactive ∧ s1._db = s._db := by
  have hf := processFlagsFrom_globalFlags_frame env _ _ _ hflags
  refine ⟨?_, hf.2.1, hf.1⟩
  simp [run, bind_apply, pure_apply, Tool.bind, hflags, hasArgs, hargs, nextArg, hpath,
    endOfArgs, failMisuse, hf.2.2.1]

/-- C4 witness: the arguments `--create mydata.cblite2 ls` in the example environment. -/
theorem run_database_path_with_extra_args_witness :
    run exampleEnv [] (startTool ["--create", "mydata.cblite2", "ls"] [])
      = (Result.fail_error,
          { startTool ["ls"] [] with
            _dbFlags := 33,
            log := [Event.failedMisuse "Unexpected extra arguments, starting with ls"] }) :=
  (run_database_path_with_extra_args exampleEnv [] (startTool ["--create", "mydata.cblite2", "ls"] [])
    { startTool ["mydata.cblite2", "ls"] [] with _dbFlags := 33 } "mydata.cblite2" "ls" []
    (by decide) rfl (by decide)).1

/-! ## The hex-key parser -/

theorem digittoint_le (c : Char) : digittoint c ≤ 15 := by
  unfold digittoint
  split_ifs <;> omega

theorem isxdigit_iff_mem (c : Char) :
    isxdigit c = true ↔ c ∈ "0123456789abcdefABCDEF".toList := by
  constructor
  · intro h
    have hc : c = Char.ofNat c.toNat := (Char.ofNat_toNat c).symm
    simp only [isxdigit, Bool.or_eq_true, Bool.and_eq_true, decide_eq_true_eq] at h
    generalize c.toNat = n at h hc
    subst hc
    rcases h with (⟨h1, h2⟩ | ⟨h1, h2⟩) | ⟨h1, h2⟩ <;> interval_cases n <;> decide
  · intro h
    revert c
    decide

theorem hexdigit_case :
    ∀ c ∈ "0123456789abcdefABCDEF".toList,
      isxdigit c.toUpper = true ∧ digittoint c.toUpper = digittoint c
        ∧ isxdigit c.toLower = true ∧ digittoint c.toLower = digittoint c := by
  decide

theorem setHexKeyLoop_true_iff (str : List Char) :
    ∀ (n k : Nat) (bytes : List Nat),
      (setHexKeyLoop str n (2 * k) bytes).1 = true
        ↔ ∀ j, 2 * k ≤ j → j < 2 * (k + n) → isxdigit (str.getD j ' ') = true := by
  intro n
  induction n with
  | zero =>
    intro k bytes
    simp only [setHexKeyLoop, true_iff]
    intro j h1 h2
    omega
  | succ n ih =>
    intro k bytes
    rw [setHexKeyLoop]
    by_cases h0 : isxdigit (str.getD (2 * k) ' ') = true
    · by_cases h1 : isxdigit (str.getD (2 * k + 1) ' ') = true
      · simp only [h0, h1, Bool.not_true, Bool.or_self, Bool.false_eq_true, if_false]
        have e : 2 * k + 2 = 2 * (k + 1) := by ring
        rw [e, ih]
        constructor
        · intro h j hj1 hj2
          by_cases hj : j = 2 * k
          · rw [hj]; exact h0
          by_cases hj' : j = 2 * k + 1
          · rw [hj']; exact h1
          exact h j (by omega) (by omega)
        · intro h j hj1 hj2
          exact h j (by omega) (by omega)
      · simp only [h0, h1, Bool.not_true, Bool.not_false, Bool.or_true, if_true]
        constructor
        · intro h; exact absurd h (by simp)
        · intro h; exact absurd (h (2 * k + 1) (by omega) (by omega)) h1
    · simp only [h0, Bool.not_false, Bool.true_or, if_true]
      constructor
      · intro h; exact absurd h (by simp)
      · intro h; exact absurd (h (2 * k) (by omega) (by omega)) h0

theorem setHexKeyLoop_bytes (str : List Char) :
    ∀ (n k : Nat) (bytes : List Nat),
      (setHexKeyLoop str n (2 * k) bytes).1 = true → k + n ≤ bytes.length →
      (setHexKeyLoop str n (2 * k) bytes).2.length = bytes.length
      ∧ (∀ i, i < k → (setHexKeyLoop str n (2 * k) bytes).2[i]? = bytes[i]?)
      ∧ (∀ i, k ≤ i → i < k + n →
          (setHexKeyLoop str n (2 * k) bytes).2[i]?
            = some (16 * digittoint (str.getD (2 * i) ' ')
                      + digittoint (str.getD (2 * i + 1) ' '))) := by
  intro n
  induction n with
  | zero =>
    intro k bytes _ _
    simp only [setHexKeyLoop, true_and]
    refine ⟨fun i _ => trivial, fun i h1 h2 => ?_⟩
    omega
  | succ n ih =>
    intro k bytes h hlen
    rw [setHexKeyLoop] at h ⊢
    by_cases hx : (!isxdigit (str.getD (2 * k) ' ') || !isxdigit (str.getD (2 * k + 1) ' ')) = true
    · rw [if_pos hx] at h
      exact absurd h (by simp)
    · rw [if_neg hx] at h ⊢
      have e : 2 * k + 2 = 2 * (k + 1) := by ring
      have ek : 2 * k / 2 = k := by omega
      rw [e, ek] at h ⊢
      have hv : (16 * digittoint (str.getD (2 * k) ' ') + digittoint (str.getD (2 * k + 1) ' ')) % 256
          = 16 * digittoint (str.getD (2 * k) ' ') + digittoint (str.getD (2 * k + 1) ' ') := by
        have a := digittoint_le (str.getD (2 * k) ' ')
        have b := digittoint_le (str.getD (2 * k + 1) ' ')
        omega
      rw [hv] at h ⊢
      obtain ⟨h1, h2, h3⟩ := ih (k + 1) _ h (by rw [List.length_set]; omega)
      refine ⟨by rw [h1, List.length_set], ?_, ?_⟩
      · intro i hi
        rw [h2 i (by omega), List.getElem?_set_ne (by omega)]
      · intro i hi1 hi2
        by_cases hik : i = k
        · subst hik
          rw [h2 i (by omega), List.getElem?_set_self (by omega)]
        · exact h3 i (by omega) (by omega)

theorem setHexKeyLoop_congr (s1 s2 : List Char)
    (h : ∀ j, isxdigit (s1.getD j ' ') = isxdigit (s2.getD j ' ')
      ∧ digittoint (s1.getD j ' ') = digittoint (s2.getD j ' ')) :
    ∀ (n src : Nat) (bytes : List Nat),
      setHexKeyLoop s1 n src bytes = setHexKeyLoop s2 n src bytes := by
  intro n
  induction n with
  | zero => intro src bytes; rfl
  | succ n ih =>
    intro src bytes
    rw [setHexKeyLoop, setHexKeyLoop, (h src).1, (h src).2, (h (src + 1)).1, (h (src + 1)).2, ih]

theorem setHexKey_true_iff (key : C4EncryptionKey) (str : String) :
    (setHexKey key str).1 = true
      ↔ str.length = 64 ∧ ∀ c ∈ str.toList, isxdigit c = true := by
  unfold setHexKey
  by_cases hl : str.length = 2 * kC4EncryptionKeySizeAES256
  · have hl64 : str.toList.length = 64 := hl
    rw [if_neg (by simpa using hl)]
    have key1 := setHexKeyLoop_true_iff str.toList kC4EncryptionKeySizeAES256 0 key.bytes
    have hsplit : (match setHexKeyLoop str.toList kC4EncryptionKeySizeAES256 0 key.bytes with
        | (false, bytes) => (false, ({ key with bytes := bytes } : C4EncryptionKey))
        | (true, bytes) => (true, ⟨C4EncryptionAlgorithm.kC4EncryptionAES256, bytes⟩)).1
        = (setHexKeyLoop str.toList kC4EncryptionKeySizeAES256 0 key.bytes).1 := by
      rcases setHexKeyLoop str.toList kC4EncryptionKeySizeAES256 0 key.bytes with ⟨b, bs⟩
      cases b <;> rfl
    rw [hsplit]
    simp only [Nat.mul_zero] at key1
    rw [key1]
    constructor
    · intro h
      refine ⟨hl, fun c hc => ?_⟩
      obtain ⟨j, hj, rfl⟩ := List.getElem_of_mem hc
      have := h j (Nat.zero_le _) (by simp [kC4EncryptionKeySizeAES256]; omega)
      rwa [List.getD_eq_getElem _ _ hj] at this
    · rintro ⟨_, h⟩ j _ hj
      have hj' : j < str.toList.length := by
        simp [kC4EncryptionKeySizeAES256] at hj; omega
      rw [List.getD_eq_getElem _ _ hj']
      exact h _ (List.getElem_mem _)
  · rw [if_pos hl]
    simp only [Bool.false_eq_true, false_iff, not_and]
    intro h
    exact absurd h hl

theorem setHexKey_case (key : C4EncryptionKey) (str : String) (f : Char → Char)
    (hf : ∀ c ∈ "0123456789abcdefABCDEF".toList,
      isxdigit (f c) = true ∧ digittoint (f c) = digittoint c)
    (h : (setHexKey key str).1 = true) :
    setHexKey key (str.map f) = setHexKey key str := by
  have hh := (setHexKey_true_iff key str).1 h
  have hdata : (str.map f).toList = str.toList.map f := by
    rw [String.map_eq]; rfl
  have hlen : (str.map f).length = str.length := by
    show (str.map f).toList.length = str.toList.length
    rw [hdata, List.length_map]
  have hcongr := setHexKeyLoop_congr (str.toList.map f) str.toList (by
    intro j
    by_cases hj : j < str.toList.length
    · have hm : j < (str.toList.map f).length := by rw [List.length_map]; exact hj
      rw [List.getD_eq_getElem _ _ hm, List.getD_eq_getElem _ _ hj, List.getElem_map]
      have hx := (isxdigit_iff_mem _).1 (hh.2 _ (List.getElem_mem hj))
      exact ⟨by rw [(hf _ hx).1, (isxdigit_iff_mem _).2 hx], (hf _ hx).2⟩
    · have hm : ¬ j < (str.toList.map f).length := by rw [List.length_map]; exact hj
      rw [List.getD_eq_default _ _ (Nat.le_of_not_lt hm),
        List.getD_eq_default _ _ (Nat.le_of_not_lt hj)]
      exact ⟨rfl, rfl⟩)
  unfold setHexKey
  rw [hlen, hdata, hcongr]

/-- C3: `setHexKey(key, str)` on a key with its 32 bytes returns `true` exactly when
`str` has 64 characters, each of them one of `0-9`, `a-f`, `A-F`, whose values under
`digittoint` are 0 to 15 with both cases of a letter alike.  When it returns `true`
the algorithm is AES-256, the key still has 32 bytes, byte `i` is
`16 * value(str[2i]) + value(str[2i+1])` for every `i < 32`, and the upper-case and
the lower-case spelling of `str` give the same result.  When it returns `false` the
algorithm field is the one the key had. -/
theorem setHexKey_spec (key : C4EncryptionKey) (str : String)
    (hk : key.bytes.length = kC4EncryptionKeySizeAES256) :
    ((setHexKey key str).1 = true
        ↔ str.length = 64 ∧ ∀ c ∈ str.toList, c ∈ "0123456789abcdefABCDEF".toList)
    ∧ "0123456789abcdefABCDEF".toList.map digittoint
        = [0, 1, 2, 3, 4, 5, 6, 7, 8, 9, 10, 11, 12, 13, 14, 15, 10, 11, 12, 13, 14, 15]
    ∧ ((setHexKey key str).1 = true →
        (setHexKey key str).2.algorithm = C4EncryptionAlgorithm.kC4EncryptionAES256
        ∧ (setHexKey key str).2.bytes.length = 32
        ∧ (∀ i, i < 32 → ∃ a b, str.toList[2 * i]? = some a ∧ str.toList[2 * i + 1]? = some b
            ∧ (setHexKey key str).2.bytes[i]? = some (16 * digittoint a + digittoint b))
        ∧ setHexKey key str.toUpper = setHexKey key str
        ∧ setHexKey key str.toLower = setHexKey key str)
    ∧ ((setHexKey key str).1 = false → (setHexKey key str).2.algorithm = key.algorithm) := by
  refine ⟨?_, by decide, ?_, ?_⟩
  · rw [setHexKey_true_iff]
    simp only [isxdigit_iff_mem]
  · intro h
    have hh := (setHexKey_true_iff key str).1 h
    have hup := setHexKey_case key str Char.toUpper
      (fun c hc => ⟨(hexdigit_case c hc).1, (hexdigit_case c hc).2.1⟩) h
    have hlo := setHexKey_case key str Char.toLower
      (fun c hc => ⟨(hexdigit_case c hc).2.2.1, (hexdigit_case c hc).2.2.2⟩) h
    refine ⟨?_, ?_, ?_, hup, hlo⟩
    all_goals
      unfold setHexKey at h ⊢
      have hl : ¬ str.length ≠ 2 * kC4EncryptionKeySizeAES256 := by
        simp [kC4EncryptionKeySizeAES256, hh.1]
      rw [if_neg hl] at h ⊢
      have hb := setHexKeyLoop_bytes str.toList kC4EncryptionKeySizeAES256 0 key.bytes
      simp only [Nat.mul_zero, Nat.zero_add] at hb
      rcases hloop : setHexKeyLoop str.toList kC4EncryptionKeySizeAES256 0 key.bytes with ⟨b, bs⟩
      rw [hloop] at h hb
      cases b
      · exact absurd h (by simp)
    · rfl
    · have := (hb rfl (le_of_eq hk.symm)).1
      simpa [hk, kC4EncryptionKeySizeAES256] using this
    · intro i hi
      have hlen : str.toList.length = 64 := hh.1
      refine ⟨str.toList[2 * i], str.toList[2 * i + 1], List.getElem?_eq_getElem _,
        List.getElem?_eq_getElem _, ?_⟩
      have := (hb rfl (le_of_eq hk.symm)).2.2 i (Nat.zero_le _) hi
      rw [List.getD_eq_getElem _ _ (by omega), List.getD_eq_getElem _ _ (by omega)] at this
      exact this
  · intro h
    unfold setHexKey at h ⊢
    by_cases hl : str.length ≠ 2 * kC4EncryptionKeySizeAES256
    · rw [if_pos hl]
    · rw [if_neg hl] at h ⊢
      rcases hloop : setHexKeyLoop str.toList kC4EncryptionKeySizeAES256 0 key.bytes with ⟨b, bs⟩
      try rw [hloop] at h
      try rw [hloop]
      cases b
      · rfl
      · exact absurd h (by simp)

/-- C3 witness: a zero-initialised key has its 32 bytes, and a 64-digit string in
mixed case is accepted. -/
theorem setHexKey_spec_witness :
    zeroKey.bytes.length = kC4EncryptionKeySizeAES256
    ∧ (setHexKey zeroKey
        "00112233445566778899aabbccddeeffAABBCCDDEEFF00112233445566778899").1 = true :=
  ⟨by decide,
    (setHexKey_spec zeroKey "00112233445566778899aabbccddeeffAABBCCDDEEFF00112233445566778899"
      (by decide)).1.2 ⟨by decide, by decide⟩⟩

/-! ## The database opener -/

theorem openLoop_opened (env : Env) (path : String) (pws : List String)
    (config : C4DatabaseConfig) (err : Option C4Error) (s : CBLiteTool) (db : Nat)
    (h : s._db = some db) :
    openLoop env path pws config err s = (Result.ok (), s) := by
  cases pws <;> simp [openLoop, h]

theorem openLoop_other_error (env : Env) (path : String) (pws : List String)
    (config : C4DatabaseConfig) (err : Option C4Error) (s : CBLiteTool)
    (h : s._db = none) (he : err ≠ some (kEncryptedDBError env)) :
    openLoop env path pws config err s
      = (Result.fail_error,
          { s with log := s.log ++ [Event.failed ("Couldn't open database " ++ path) err] }) := by
  cases pws <;> simp [openLoop, h, he, fail]

theorem openLoop_no_prompt (env : Env) (path : String) (pws : List String)
    (config : C4DatabaseConfig) (s : CBLiteTool)
    (h : s._db = none) (hent : env.COUCHBASE_ENTERPRISE = true)
    (hint : s._interactive = false) (hnp : s._dbNeedsPassword = false) :
    openLoop env path pws config (some (kEncryptedDBError env)) s
      = (Result.fail_error,
          { s with log := s.log ++
              [Event.failed
                "Database is encrypted (use `--encrypted` flag to get a password prompt)"
                none] }) := by
  cases pws <;> simp [openLoop, h, hent, hint, hnp, fail]

theorem openLoop_community (env : Env) (path : String) (pws : List String)
    (config : C4DatabaseConfig) (s : CBLiteTool)
    (h : s._db = none) (hent : env.COUCHBASE_ENTERPRISE = false) :
    openLoop env path pws config (some (kEncryptedDBError env)) s
      = (Result.fail_error,
          { s with log := s.log ++
              [Event.failed
                "Database is encrypted (Enterprise Edition is required to open encrypted databases)"
                none] }) := by
  cases pws <;> simp [openLoop, h, hent, fail]

/-- C9, as stated, fails: in the example environment built without
`COUCHBASE_ENTERPRISE`, `openDatabase` on `db.cblite2` in the start state (not
interactive, no `--encrypted`), whose open attempt is answered with the
not-a-database-file error, fails with the message about the Enterprise Edition and
not with the one about the `--encrypted` flag. -/
theorem openDatabase_community_message :
    openDatabase communityEnv "db.cblite2" (startTool [] ["secret"])
      = (Result.fail_error,
          { startTool [] ["secret"] with
            log := [Event.c4db_open "db.cblite2" ⟨34, zeroKey⟩,
                    Event.failed
                      "Database is encrypted (Enterprise Edition is required to open encrypted databases)"
                      none] }) := by
  decide

/-- C9, amended: `openDatabase` on a path with the database suffix, in a session that
is not interactive and does not need a password, makes one open attempt with the
session's flags and no key.  If the engine answers with the not-a-database-file
error, it fails with the message about the `--encrypted` flag in an enterprise
build and with the message that the Enterprise Edition is required in any other
build; if the engine answers with another error, it fails with
`Couldn't open database <path>` and that error; in both cases the log gains the open
attempt and the failure only, no password is read and no handle is stored.  If the
engine opens the database, the handle is stored and the call returns. -/
theorem openDatabase_not_interactive (env : Env) (path : String) (s : CBLiteTool)
    (hpath : isDatabasePath env (env.fixUpPath path) = true)
    (hint : s._interactive = false) (hnp : s._dbNeedsPassword = false) :
    (env.c4db_open (env.fixUpPath path) ⟨s._dbFlags, zeroKey⟩
        = Except.error (kEncryptedDBError env) →
      openDatabase env path s
        = (Result.fail_error,
            { s with
              _db := none,
              log := s.log ++
                [Event.c4db_open (env.fixUpPath path) ⟨s._dbFlags, zeroKey⟩,
                 Event.failed
                   (if env.COUCHBASE_ENTERPRISE then
                      "Database is encrypted (use `--encrypted` flag to get a password prompt)"
                    else
                      "Database is encrypted (Enterprise Edition is required to open encrypted databases)")
                   none] }))
    ∧ (∀ e, e ≠ kEncryptedDBError env →
        env.c4db_open (env.fixUpPath path) ⟨s._dbFlags, zeroKey⟩ = Except.error e →
        openDatabase env path s
          = (Result.fail_error,
              { s with
                _db := none,
                log := s.log ++
                  [Event.c4db_open (env.fixUpPath path) ⟨s._dbFlags, zeroKey⟩,
                   Event.failed ("Couldn't open database " ++ env.fixUpPath path) (some e)] }))
    ∧ (∀ db, env.c4db_open (env.fixUpPath path) ⟨s._dbFlags, zeroKey⟩ = Except.ok db →
        openDatabase env path s
          = (Result.ok (),
              { s with
                _db := some db,
                log := s.log ++ [Event.c4db_open (env.fixUpPath path) ⟨s._dbFlags, zeroKey⟩] })) := by
  refine ⟨?_, ?_, ?_⟩
  · intro ho
    simp only [openDatabase, hpath, hnp, callOpen, ho]
    simp only [Bool.not_true, Bool.not_false, Bool.false_eq_true, if_false, if_true]
    cases hent : env.COUCHBASE_ENTERPRISE
    · rw [openLoop_community env _ _ _ _ (by simp) hent]
      simp
    · rw [openLoop_no_prompt env _ _ _ _ (by simp) hent (by simpa using hint) (by simp)]
      simp
  · intro e hne ho
    simp only [openDatabase, hpath, hnp, callOpen, ho]
    simp only [Bool.not_true, Bool.not_false, Bool.false_eq_true, if_false, if_true]
    rw [openLoop_other_error env _ _ _ _ _ (by simp) (by simpa using hne)]
    simp
  · intro db ho
    simp only [openDatabase, hpath, hnp, callOpen, ho]
    simp only [Bool.not_true, Bool.not_false, Bool.false_eq_true, if_false, if_true]
    rw [openLoop_opened env _ _ _ _ _ db (by simp)]

/-- C9 witness: the start state on `db.cblite2` in the example environment, an
enterprise build whose engine answers an open attempt without a key with the
not-a-database-file error. -/
theorem openDatabase_not_interactive_witness :
    openDatabase exampleEnv "db.cblite2" (startTool [] ["secret"])
      = (Result.fail_error,
          { startTool [] ["secret"] with
            log := [Event.c4db_open "db.cblite2" ⟨34, zeroKey⟩,
                    Event.failed
                      "Database is encrypted (use `--encrypted` flag to get a password prompt)"
                      none] }) :=
  (openDatabase_not_interactive exampleEnv "db.cblite2" (startTool [] ["secret"])
    (by decide) rfl rfl).1 rfl

theorem openCount_append (l1 l2 : List Event) :
    openCount (l1 ++ l2) = openCount l1 + openCount l2 := by
  simp [openCount, List.countP_append]

theorem deriveFailureCount_append (l1 l2 : List Event) :
    deriveFailureCount (l1 ++ l2) = deriveFailureCount l1 + deriveFailureCount l2 := by
  simp [deriveFailureCount, List.count_append]

/-- The password loop over a run of responses none of which opens the database:
each is read, and each either yields no key or yields a key that the engine rejects
with the not-a-database-file error.  The loop then stands before the next response
with no handle, the same flags, and one open attempt or one derivation failure
logged per response. -/
theorem openLoop_rejected (env : Env) (path : String) (rest : List String) :
    ∀ (bad : List String) (config : C4DatabaseConfig) (s : CBLiteTool),
      env.COUCHBASE_ENTERPRISE = true → s._db = none →
      (s._interactive = true ∨ s._dbNeedsPassword = true) →
      s.passwords = bad ++ rest →
      (∀ p ∈ bad, p ≠ "" ∧ ∀ k k', deriveKey env k p = (true, k') →
        env.c4db_open path ⟨config.flags, k'⟩ = Except.error (kEncryptedDBError env)) →
      ∃ (config1 : C4DatabaseConfig) (evs : List Event),
        openLoop env path (bad ++ rest) config (some (kEncryptedDBError env)) s
          = openLoop env path rest config1 (some (kEncryptedDBError env))
              { s with passwords := rest, log := s.log ++ evs }
        ∧ config1.flags = config.flags
        ∧ openCount evs + deriveFailureCount evs = bad.length := by
  intro bad
  induction bad with
  | nil =>
    intro config s _ _ _ hp _
    refine ⟨config, [], ?_, rfl, rfl⟩
    simp only [List.nil_append] at hp ⊢
    rw [← hp, List.append_nil]
  | cons p ps ih =>
    intro config s hent hdb hmode hp hbad
    have hp1 := hbad p (List.mem_cons_self _ _)
    have hps : ∀ q ∈ ps, q ≠ "" ∧ ∀ k k', deriveKey env k q = (true, k') →
        env.c4db_open path ⟨config.flags, k'⟩ = Except.error (kEncryptedDBError env) :=
      fun q hq => hbad q (List.mem_cons_of_mem _ hq)
    have hm : (!s._interactive && !s._dbNeedsPassword) = false := by
      rcases hmode with h | h <;> simp [h]
    rw [List.cons_append, openLoop]
    simp only [hdb, hent, hm, hp1.1, Option.isNone_none, beq_self_eq_true, Bool.and_self,
      if_true, if_false, Bool.false_eq_true]
    generalize (if config.encryptionKey.algorithm ≠ C4EncryptionAlgorithm.kC4EncryptionNone
      then "Sorry, try again: " else "Database password or hex key:") = prompt
    rcases hd : deriveKey env config.encryptionKey p with ⟨ok, key⟩
    cases ok
    · simp only []
      obtain ⟨c1, evs, h1, h2, h3⟩ := ih { config with encryptionKey := key }
        { s with passwords := ps ++ rest,
                 log := s.log ++ [Event.readPassword prompt p]
                   ++ [Event.cout "Error: Couldn't derive key from password\n"] }
        hent hdb hmode rfl hps
      refine ⟨c1, [Event.readPassword prompt p,
        Event.cout "Error: Couldn't derive key from password\n"] ++ evs, ?_, h2, ?_⟩
      · simpa [hdb] using h1
      · rw [openCount_append, deriveFailureCount_append, List.length_cons, ← h3]
        simp [openCount, deriveFailureCount, List.countP_cons, List.count_cons]
        omega
    · simp only [callOpen, hp1.2 _ _ hd]
      obtain ⟨c1, evs, h1, h2, h3⟩ := ih { config with encryptionKey := key }
        { s with _db := none, passwords := ps ++ rest,
                 log := s.log ++ [Event.readPassword prompt p]
                   ++ [Event.c4db_open path { config with encryptionKey := key }] }
        hent rfl hmode rfl hps
      refine ⟨c1, [Event.readPassword prompt p,
        Event.c4db_open path { config with encryptionKey := key }] ++ evs, ?_, h2, ?_⟩
      · simpa [hdb] using h1
      · rw [openCount_append, deriveFailureCount_append, List.length_cons, ← h3]
        simp [openCount, deriveFailureCount, List.countP_cons, List.count_cons]
        omega

theorem setHexKey_of_length_ne (key : C4EncryptionKey) (str : String)
    (h : str.length ≠ 2 * kC4EncryptionKeySizeAES256) : setHexKey key str = (false, key) := by
  rw [setHexKey, if_pos h]

theorem openLoop_empty_response (env : Env) (path : String) (post : List String)
    (config : C4DatabaseConfig) (s : CBLiteTool)
    (hent : env.COUCHBASE_ENTERPRISE = true) (hdb : s._db = none)
    (hmode : s._interactive = true ∨ s._dbNeedsPassword = true) :
    ∃ prompt, openLoop env path ("" :: post) config (some (kEncryptedDBError env)) s
      = (Result.exited 1,
          { s with passwords := post, log := s.log ++ [Event.readPassword prompt ""] }) := by
  have hm : (!s._interactive && !s._dbNeedsPassword) = false := by
    rcases hmode with h | h <;> simp [h]
  refine ⟨if config.encryptionKey.algorithm ≠ C4EncryptionAlgorithm.kC4EncryptionNone then
    "Sorry, try again: " else "Database password or hex key:", ?_⟩
  rw [openLoop]
  simp only [hdb, hent, hm, Option.isNone_none, beq_self_eq_true, Bool.and_self, if_true,
    if_false, Bool.false_eq_true]

/-- C6: `openDatabase` in an enterprise build, on a path with the database suffix,
in a session that reaches the password prompt: either it needs a password and
holds no handle, or it is interactive and the open attempt without a key is
answered with the not-a-database-file error.  If the prompt gives the non-empty
responses `pre`, none of which opens the database, and then the empty response,
the process exits with status 1, the session holds no handle, and the reading of
the empty response is the last entry of the log, so no open attempt follows it. -/
theorem openDatabase_empty_password (env : Env) (path : String) (s : CBLiteTool)
    (pre post : List String)
    (hent : env.COUCHBASE_ENTERPRISE = true)
    (hpath : isDatabasePath env (env.fixUpPath path) = true)
    (hreach : (s._dbNeedsPassword = true ∧ s._db = none)
      ∨ (s._dbNeedsPassword = false ∧ s._interactive = true
          ∧ env.c4db_open (env.fixUpPath path) ⟨s._dbFlags, zeroKey⟩
              = Except.error (kEncryptedDBError env)))
    (hpw : s.passwords = pre ++ "" :: post)
    (hpre : ∀ p ∈ pre, p ≠ "" ∧ ∀ k k', deriveKey env k p = (true, k') →
      env.c4db_open (env.fixUpPath path) ⟨s._dbFlags, k'⟩
        = Except.error (kEncryptedDBError env)) :
    ∃ (evs : List Event) (prompt : String),
      openDatabase env path s
        = (Result.exited 1,
            { s with
              _db := none,
              passwords := post,
              log := s.log ++ evs ++ [Event.readPassword prompt ""] }) := by
  rcases hreach with ⟨hnp, hdb⟩ | ⟨hnp, hint, ho⟩
  · obtain ⟨c1, evs, h1, _, _⟩ := openLoop_rejected env (env.fixUpPath path) ("" :: post) pre
      ⟨s._dbFlags, zeroKey⟩ s hent hdb (Or.inr hnp) hpw hpre
    obtain ⟨prompt, h2⟩ := openLoop_empty_response env (env.fixUpPath path) post c1
      { s with passwords := "" :: post, log := s.log ++ evs } hent hdb (Or.inr hnp)
    refine ⟨evs, prompt, ?_⟩
    simp only [openDatabase, hpath, hnp, Bool.not_true, Bool.false_eq_true, if_false]
    rw [hpw, h1, h2]
    simp [hdb, hnp]
  · obtain ⟨c1, evs, h1, _, _⟩ := openLoop_rejected env (env.fixUpPath path) ("" :: post) pre
      ⟨s._dbFlags, zeroKey⟩
      { s with _db := none,
               log := s.log ++ [Event.c4db_open (env.fixUpPath path) ⟨s._dbFlags, zeroKey⟩] }
      hent rfl (Or.inl hint) hpw hpre
    obtain ⟨prompt, h2⟩ := openLoop_empty_response env (env.fixUpPath path) post c1
      { s with _db := none, passwords := "" :: post,
               log := s.log ++ [Event.c4db_open (env.fixUpPath path) ⟨s._dbFlags, zeroKey⟩]
                 ++ evs } hent rfl (Or.inl hint)
    refine ⟨Event.c4db_open (env.fixUpPath path) ⟨s._dbFlags, zeroKey⟩ :: evs, prompt, ?_⟩
    simp only [hnp, hpw] at h1 h2
    simp only [openDatabase, hpath, hnp, callOpen, ho, Bool.not_false, if_true]
    rw [hpw, h1, h2]
    simp [hnp]

/-- C6 witness: the example environment with `--encrypted` given, the rejected
response `hunter2` and then the empty response. -/
theorem openDatabase_empty_password_witness :
    ∃ (evs : List Event) (prompt : String),
      openDatabase exampleEnv "db.cblite2"
          { startTool [] ["hunter2", "", "secret"] with _dbNeedsPassword := true }
        = (Result.exited 1,
            { startTool [] ["secret"] with
              _dbNeedsPassword := true,
              log := [] ++ evs ++ [Event.readPassword prompt ""] }) :=
  openDatabase_empty_password exampleEnv "db.cblite2"
    { startTool [] ["hunter2", "", "secret"] with _dbNeedsPassword := true }
    ["hunter2"] ["secret"] rfl (by decide) (Or.inl ⟨rfl, rfl⟩) rfl
    (by
      intro p hp
      simp only [List.mem_singleton] at hp
      subst hp
      refine ⟨by decide, fun k k' h => ?_⟩
      rw [deriveKey, setHexKey_of_length_ne k "hunter2" (by decide)] at h
      have hl : ¬ "hunter2".length < 4 := by decide
      have hv : "hunter2".length % 256 = 7 := by decide
      simp [exampleEnv, hl, hv] at h
      subst h
      simp [exampleEnv, kEncryptedDBError])

/-! ## The interactive loop -/

/-- The call `subcommand(name)` changes nothing in the tool but, for `quit`, the log. -/
theorem subcommand_state (env : Env) (name : String) (s : CBLiteTool) :
    ∃ l, (subcommand env name s).2 = { s with log := l } := by
  by_cases hs : name = "serve"
  · subst hs; rw [subcommand_serve]; exact ⟨s.log, rfl⟩
  by_cases hq : name = "quit"
  · subst hq
    rw [subcommand_quit]
    by_cases hi : s._interactive = true
    · rw [if_pos hi]; exact ⟨_, rfl⟩
    · rw [if_neg hi]; exact ⟨s.log, rfl⟩
  by_cases hm : name ∈ (subcommandTable env).map Prod.fst
  · obtain ⟨f, hf⟩ := subcommand_registered env name hm hs hq
    rw [hf]; exact ⟨s.log, rfl⟩
  · rw [subcommand_not_registered env name s hm]; exact ⟨s.log, rfl⟩

/-- When `subcommand(name)` yields no command the tool is as it was. -/
theorem subcommand_none_state (env : Env) (name : String) (s : CBLiteTool)
    (h : (subcommand env name s).1 = Result.ok none) : subcommand env name s = (Result.ok none, s) := by
  by_cases hs : name = "serve"
  · subst hs; rw [subcommand_serve] at h ⊢; simp only at h; rw [h]
  by_cases hq : name = "quit"
  · subst hq
    rw [subcommand_quit] at h ⊢
    by_cases hi : s._interactive = true
    · rw [if_pos hi] at h; simp at h
    · rw [if_neg hi]
  by_cases hm : name ∈ (subcommandTable env).map Prod.fst
  · obtain ⟨f, hf⟩ := subcommand_registered env name hm hs hq
    rw [hf] at h; simp at h
  · exact subcommand_not_registered env name s hm

/-- A member of the tool that `helpCommand` leaves as it found it: one that does not
depend on the argument cursor or the log. -/
theorem helpCommand_preserves {α : Type} (env : Env) (proj : CBLiteTool → α)
    (hproj : ∀ t a l, proj { t with _args := a, log := l } = proj t) (s : CBLiteTool) :
    proj (helpCommand env s).2 = proj s := by
  unfold helpCommand
  split_ifs
  · cases ha : s._args with
    | nil => simp [bind_apply, Tool.bind, nextArg, ha, failMisuse]; exact hproj s [] _
    | cons a rest =>
      obtain ⟨l, hl⟩ := subcommand_state env a { s with _args := rest }
      simp only [bind_apply, Tool.bind, nextArg, ha]
      rcases hsub : subcommand env a { s with _args := rest } with ⟨r, t⟩
      rw [hsub] at hl
      simp only at hl
      subst hl
      cases r with
      | ok c => cases c <;> simp [emit] <;> exact hproj s rest _
      | _ => simp; exact hproj s rest _
  · simp [emit]; exact hproj s s._args _
  · simp [usage, emit]; exact hproj s s._args _

/-- A member of the tool, not depending on the argument cursor or the log, keeps the
value `v` over a line of the shell if the subcommands keep it on the states that
have it. -/
theorem runLine_preserves {α : Type} (env : Env) (proj : CBLiteTool → α)
    (hproj : ∀ t a l, proj { t with _args := a, log := l } = proj t) (v : α)
    (hcmd : ∀ c t, proj t = v → proj (env.runSubcommand c t).2 = v) (s : CBLiteTool)
    (hs : proj s = v) :
    proj (runLine env s).2 = v := by
  unfold runLine
  cases ha : s._args with
  | nil =>
    simp [bind_apply, Tool.bind, nextArg, ha, failMisuse]
    exact (hproj s [] _).trans hs
  | cons a rest =>
    simp only [bind_apply, Tool.bind, nextArg, ha]
    by_cases hh : a = "help"
    · simp only [hh, if_true]
      rw [helpCommand_preserves env proj hproj]
      exact (hproj s rest s.log).trans hs
    · simp only [hh, if_false, bind_apply, Tool.bind]
      obtain ⟨l, hl⟩ := subcommand_state env a { s with _args := rest }
      rcases hsub : subcommand env a { s with _args := rest } with ⟨r, t⟩
      rw [hsub] at hl
      simp only at hl
      subst hl
      cases r with
      | ok c =>
        cases c with
        | none => simp [emit]; exact (hproj s rest _).trans hs
        | some c => exact hcmd c _ ((hproj s rest _).trans hs)
      | _ => simp; exact (hproj s rest _).trans hs

/-- The same over the whole loop of the shell. -/
theorem interactiveLoop_preserves {α : Type} (env : Env) (proj : CBLiteTool → α)
    (hproj : ∀ t a l, proj { t with _args := a, log := l } = proj t) (v : α)
    (hcmd : ∀ c t, proj t = v → proj (env.runSubcommand c t).2 = v) :
    ∀ (lines : List (List String)) (s : CBLiteTool), proj s = v →
      proj (interactiveLoop env lines s).2 = v := by
  intro lines
  induction lines with
  | nil =>
    intro s hs
    exact (hproj s s._args _).trans hs
  | cons l ls ih =>
    intro s hs
    have h := runLine_preserves env proj hproj v hcmd
      { s with _args := l, log := s.log ++ [Event.readLine "(cblite) " (some l)] }
      ((hproj s l _).trans hs)
    rw [interactiveLoop]
    rcases hr : runLine env
      { s with _args := l, log := s.log ++ [Event.readLine "(cblite) " (some l)] } with ⟨r, t⟩
    rw [hr] at h
    simp only at h
    cases r
    · exact ih t h
    · exact ih t h
    · exact ih t h
    · exact h
    · exact h
    · exact h

theorem openLoop_ok_handle (env : Env) (path : String) :
    ∀ (pws : List String) (config : C4DatabaseConfig) (err : Option C4Error)
      (s s1 : CBLiteTool),
      openLoop env path pws config err s = (Result.ok (), s1) → s1._db.isSome = true := by
  have tail : ∀ (err : Option C4Error) (s s1 : CBLiteTool),
      (if s._db.isNone = true then
          (fail ("Couldn't open database " ++ path) err s : Result Unit × CBLiteTool)
        else (Result.ok (), s)) = (Result.ok (), s1) → s1._db.isSome = true := by
    intro err s s1 h
    by_cases hn : s._db.isNone = true
    · rw [if_pos hn] at h; simp [fail] at h
    · rw [if_neg hn] at h
      simp only [Prod.mk.injEq, true_and] at h
      subst h
      cases hd : s._db
      · rw [hd] at hn; simp at hn
      · rfl
  intro pws
  induction pws with
  | nil =>
    intro config err s s1 h
    rw [openLoop] at h
    by_cases h1 : (s._db.isNone && err == some (kEncryptedDBError env)) = true
    · rw [if_pos h1] at h
      split_ifs at h <;> simp [fail] at h
    · rw [if_neg h1] at h
      exact tail err s s1 h
  | cons p ps ih =>
    intro config err s s1 h
    rw [openLoop] at h
    by_cases h1 : (s._db.isNone && err == some (kEncryptedDBError env)) = true
    · rw [if_pos h1] at h
      by_cases h2 : env.COUCHBASE_ENTERPRISE = true
      · rw [if_pos h2] at h
        by_cases h3 : (!s._interactive && !s._dbNeedsPassword) = true
        · rw [if_pos h3] at h; simp [fail] at h
        · rw [if_neg h3] at h
          by_cases h4 : p = ""
          · simp [h4] at h
          · simp only [h4, if_false] at h
            rcases hd : deriveKey env config.encryptionKey p with ⟨ok, key⟩
            rw [hd] at h
            cases ok
            · exact ih _ _ _ _ h
            · exact ih _ _ _ _ h
      · rw [if_neg h2] at h; simp [fail] at h
    · rw [if_neg h1] at h
      exact tail err s s1 h

/-- When `openDatabase` returns, the tool holds a handle. -/
theorem openDatabase_ok_handle (env : Env) (path : String) (s s1 : CBLiteTool)
    (h : openDatabase env path s = (Result.ok (), s1)) : s1._db.isSome = true := by
  unfold openDatabase at h
  simp only [] at h
  split_ifs at h
  · simp [fail] at h
  · exact openLoop_ok_handle env _ _ _ _ _ _ h
  · exact openLoop_ok_handle env _ _ _ _ _ _ h

/-- When `openDatabaseFromNextArg` returns, the tool holds a handle. -/
theorem openDatabaseFromNextArg_ok_handle (env : Env) (s s1 : CBLiteTool)
    (h : openDatabaseFromNextArg env s = (Result.ok (), s1)) : s1._db.isSome = true := by
  unfold openDatabaseFromNextArg at h
  by_cases hn : s._db.isNone = true
  · rw [if_pos hn] at h
    cases ha : s._args with
    | nil => simp [bind_apply, Tool.bind, nextArg, ha, failMisuse] at h
    | cons a rest =>
      simp only [bind_apply, Tool.bind, nextArg, ha] at h
      exact openDatabase_ok_handle env _ _ _ h
  · rw [if_neg hn] at h
    simp only [Prod.mk.injEq, true_and] at h
    subst h
    cases hd : s._db
    · rw [hd] at hn; simp at hn
    · rfl

/-- The subcommands of `shellEnv`, run on a tool that holds a handle, leave the
handle and the open flags as they found them. -/
theorem shellEnv_runSubcommand (c : CBLiteCommand) (t : CBLiteTool) (db : Nat)
    (ht : t._db = some db) :
    (shellEnv.runSubcommand c t).2._db = some db
      ∧ (shellEnv.runSubcommand c t).2._dbFlags = t._dbFlags := by
  simp only [shellEnv, exampleEnv]
  split_ifs
  · simp [openDatabaseFromNextArg, ht]
  · simp only [openWriteableDatabaseFromNextArg, ht, Option.isSome_some, if_true]
    split_ifs <;> simp [fail, ht]
  all_goals exact ⟨ht, rfl⟩


/-- C7: the loop of `runInteractively`.  (0) `runInteractively` marks the session
interactive, prints the banner and runs the loop on the lines of the terminal.
(1) If the first token of a line is not `help` and `subcommand` yields no command
for it, the `Unknown subcommand` message is printed and the loop goes on to the
next line, with the handle it had.  (2) If running the line returns, or raises
`exit_error` or `fail_error`, the loop goes on to the next line in the state in
which the line ended: the signal is caught and nothing is changed.  (3) A line
without a token raises such a `fail_error`, the usage error of `nextArg`, with the
handle as it was.  (4) In a shell that holds a handle, the state in which a line
ends holds that handle, if the subcommands, run on a tool that holds it, leave it
in place.  (5) Any other exception, and a call of `exit`, end the loop and leave
it.  (6) `runInteractively` returns only after `readLine` has reported the end of
input, and at the end of input it does return.  (7) The loop is entered with a
handle: `openDatabase` returns only with one stored. -/
theorem interactive_loop_isolation (env : Env) (line : List String) (rest : List (List String))
    (s : CBLiteTool) :
    (∀ lines,
        runInteractively env lines s
          = interactiveLoop env lines
              { s with
                _interactive := true,
                log := s.log ++
                  [Event.cout ("Opened "
                    ++ (if s._dbFlags &&& kC4DB_ReadOnly ≠ 0 then "read-only" else "writeable")
                    ++ " database " ++ env.c4db_getPath s._db ++ "\n")] })
    ∧ (∀ cmd args, line = cmd :: args → cmd ≠ "help" →
        (subcommand env cmd
          { s with _args := args,
                   log := s.log ++ [Event.readLine "(cblite) " (some line)] }).1 = Result.ok none →
        interactiveLoop env (line :: rest) s
          = interactiveLoop env rest
              { s with
                _args := args,
                log := s.log ++ [Event.readLine "(cblite) " (some line),
                  Event.cerr ("Unknown subcommand '" ++ cmd
                    ++ "'; type 'help' for a list of commands.\n")] })
    ∧ (∀ s2,
        runLine env { s with _args := line,
                             log := s.log ++ [Event.readLine "(cblite) " (some line)] }
            = (Result.ok (), s2)
        ∨ runLine env { s with _args := line,
                               log := s.log ++ [Event.readLine "(cblite) " (some line)] }
            = (Result.exit_error, s2)
        ∨ runLine env { s with _args := line,
                               log := s.log ++ [Event.readLine "(cblite) " (some line)] }
            = (Result.fail_error, s2) →
        interactiveLoop env (line :: rest) s = interactiveLoop env rest s2)
    ∧ (line = [] →
        runLine env { s with _args := line,
                             log := s.log ++ [Event.readLine "(cblite) " (some line)] }
          = (Result.fail_error,
              { s with
                _args := [],
                log := s.log ++ [Event.readLine "(cblite) " (some line),
                  Event.failedMisuse "Missing argument: expected subcommand"] }))
    ∧ (∀ db, s._db = some db →
        (∀ c t, t._db = some db → (env.runSubcommand c t).2._db = some db) →
        (runLine env { s with _args := line,
                              log := s.log ++ [Event.readLine "(cblite) " (some line)] }).2._db
          = some db)
    ∧ (∀ s2,
        (∀ w, runLine env { s with _args := line,
                                   log := s.log ++ [Event.readLine "(cblite) " (some line)] }
                = (Result.error w, s2) →
              interactiveLoop env (line :: rest) s = (Result.error w, s2))
        ∧ (∀ n, runLine env { s with _args := line,
                                     log := s.log ++ [Event.readLine "(cblite) " (some line)] }
                = (Result.exited n, s2) →
              interactiveLoop env (line :: rest) s = (Result.exited n, s2)))
    ∧ (∀ lines s1, runInteractively env lines s = (Result.ok (), s1) →
        s1.log.getLast? = some (Event.readLine "(cblite) " none))
    ∧ runInteractively env [] s
        = (Result.ok (),
            { s with
              _interactive := true,
              log := s.log ++
                [Event.cout ("Opened "
                  ++ (if s._dbFlags &&& kC4DB_ReadOnly ≠ 0 then "read-only" else "writeable")
                  ++ " database " ++ env.c4db_getPath s._db ++ "\n"),
                 Event.readLine "(cblite) " none] })
    ∧ (∀ path t t1, openDatabase env path t = (Result.ok (), t1) → t1._db.isSome = true) := by
  refine ⟨fun _ => rfl, ?_, ?_, ?_, ?_, ?_, ?_, ?_, openDatabase_ok_handle env⟩
  · intro cmd args hl hh hres
    subst hl
    have hsub := subcommand_none_state env cmd _ hres
    rw [interactiveLoop]
    simp [runLine, bind_apply, Tool.bind, nextArg, hh, hsub, emit]
  · intro s2 h
    rw [interactiveLoop]
    rcases h with h | h | h <;> rw [h]
  · intro hl
    subst hl
    simp [runLine, bind_apply, Tool.bind, nextArg, failMisuse]
  · intro db hdb hcmd
    exact runLine_preserves env (fun t => t._db) (fun _ _ _ => rfl) (some db) hcmd _ hdb
  · intro s2
    constructor
    · intro w h
      rw [interactiveLoop, h]
    · intro n h
      rw [interactiveLoop, h]
  · intro lines s1 h
    have key : ∀ (ls : List (List String)) (t t1 : CBLiteTool),
        interactiveLoop env ls t = (Result.ok (), t1) →
        t1.log.getLast? = some (Event.readLine "(cblite) " none) := by
      intro ls
      induction ls with
      | nil =>
        intro t t1 ht
        simp only [interactiveLoop, Prod.mk.injEq, true_and] at ht
        subst ht
        simp
      | cons l ls ih =>
        intro t t1 ht
        rw [interactiveLoop] at ht
        split at ht
        · exact ih _ _ ht
        · exact ih _ _ ht
        · exact ih _ _ ht
        all_goals simp at ht
    exact key lines _ s1 h
  · simp [runInteractively, interactiveLoop]

/-- C7 witness: the shell of `shellEnv` with an open database.  Its `ls` starts with
`openDatabaseFromNextArg`, and the line `ls other.cblite2` ends with the handle in
place; its `cat` ends with `exit_error`, and the loop goes on to the next line. -/
theorem interactive_loop_isolation_witness :
    (runLine shellEnv
        { startTool ["ls", "other.cblite2"] [] with
          _db := some 1, _interactive := true,
          log := [Event.readLine "(cblite) " (some ["ls", "other.cblite2"])] }).2._db = some 1
    ∧ interactiveLoop shellEnv [["cat"], ["nosuch"]]
          { startTool [] [] with _db := some 1, _interactive := true }
        = interactiveLoop shellEnv [["nosuch"]]
            { startTool [] [] with
              _db := some 1, _interactive := true,
              log := [Event.readLine "(cblite) " (some ["cat"])] } :=
  ⟨(interactive_loop_isolation shellEnv ["ls", "other.cblite2"] []
      { startTool [] [] with _db := some 1, _interactive := true }).2.2.2.2.1 1 rfl
      (fun c t ht => (shellEnv_runSubcommand c t 1 ht).1),
    (interactive_loop_isolation shellEnv ["cat"] [["nosuch"]]
      { startTool [] [] with _db := some 1, _interactive := true }).2.2.1 _
      (Or.inr (Or.inl (by decide)))⟩

/-! ## The open flags -/

theorem openLoop_flags (env : Env) (path : String) :
    ∀ (pws : List String) (config : C4DatabaseConfig) (err : Option C4Error) (s : CBLiteTool),
      (openLoop env path pws config err s).2._dbFlags = s._dbFlags := by
  intro pws
  induction pws with
  | nil =>
    intro config err s
    rw [openLoop]
    split_ifs <;> simp [fail]
  | cons p ps ih =>
    intro config err s
    rw [openLoop]
    by_cases h1 : (s._db.isNone && err == some (kEncryptedDBError env)) = true
    · rw [if_pos h1]
      by_cases h2 : env.COUCHBASE_ENTERPRISE = true
      · rw [if_pos h2]
        by_cases h3 : (!s._interactive && !s._dbNeedsPassword) = true
        · rw [if_pos h3]; simp [fail]
        · rw [if_neg h3]
          by_cases h4 : p = ""
          · simp only [h4, if_true]
          · simp only [h4, if_false]
            rcases hd : deriveKey env config.encryptionKey p with ⟨ok, key⟩
            cases ok
            · simp only [ih]
            · simp only [ih, callOpen]
              cases env.c4db_open path { config with encryptionKey := key } <;> rfl
      · rw [if_neg h2]; simp [fail]
    · rw [if_neg h1]
      split_ifs <;> simp [fail]

theorem openDatabase_flags (env : Env) (path : String) (s : CBLiteTool) :
    (openDatabase env path s).2._dbFlags = s._dbFlags := by
  unfold openDatabase
  simp only []
  split_ifs
  · simp [fail]
  · rw [openLoop_flags]
    simp only [callOpen]
    cases env.c4db_open (env.fixUpPath path) ⟨s._dbFlags, zeroKey⟩ <;> rfl
  · rw [openLoop_flags]

theorem openDatabaseFromNextArg_flags (env : Env) (s : CBLiteTool) :
    (openDatabaseFromNextArg env s).2._dbFlags = s._dbFlags := by
  unfold openDatabaseFromNextArg
  split_ifs
  · cases ha : s._args with
    | nil => simp [bind_apply, Tool.bind, nextArg, ha, failMisuse]
    | cons a rest => simp [bind_apply, Tool.bind, nextArg, ha, openDatabase_flags]
  · rfl

/-- C10, as stated, fails: in the example environment
`openWriteableDatabaseFromNextArg` on the start state, whose flags are read-only and
no-upgrade (`0x22`), opens `plain.cblite2` and leaves the flags at `0x20`. -/
theorem openWriteable_changes_flags :
    openWriteableDatabaseFromNextArg exampleEnv (startTool ["plain.cblite2"] [])
        = (Result.ok (),
            { startTool [] [] with
              _db := some 2,
              _dbFlags := 32,
              log := [Event.c4db_open "plain.cblite2" ⟨32, zeroKey⟩] })
    ∧ (openWriteableDatabaseFromNextArg exampleEnv (startTool ["plain.cblite2"] [])).2._dbFlags
        ≠ (startTool ["plain.cblite2"] [])._dbFlags := by
  constructor <;> decide

/-- C10, amended: `openDatabase`, `openDatabaseFromNextArg`, `subcommand` and
`helpCommand` leave the open flags as they found them, however they end.
`openWriteableDatabaseFromNextArg` leaves the flags as it found them when a database
is open, and clears the read-only bit, before it opens one, when none is.
`runInteractively`, entered with an open database, and `shell`, which opens one
first, leave the flags as they found them if the subcommands, run on a tool with an
open database, leave the flags alone and the database open. -/
theorem open_flags_frame (env : Env) (s : CBLiteTool) (path name : String)
    (lines : List (List String)) :
    (openDatabase env path s).2._dbFlags = s._dbFlags
    ∧ (openDatabaseFromNextArg env s).2._dbFlags = s._dbFlags
    ∧ (subcommand env name s).2._dbFlags = s._dbFlags
    ∧ (helpCommand env s).2._dbFlags = s._dbFlags
    ∧ (openWriteableDatabaseFromNextArg env s).2._dbFlags
        = (if s._db.isSome then s._dbFlags else s._dbFlags &&& bitNot32 kC4DB_ReadOnly)
    ∧ (s._dbFlags &&& bitNot32 kC4DB_ReadOnly).testBit 1 = false
    ∧ ((∀ c t, t._db.isSome = true →
          (env.runSubcommand c t).2._dbFlags = t._dbFlags
            ∧ (env.runSubcommand c t).2._db.isSome = true) →
        (s._db.isSome = true → (runInteractively env lines s).2._dbFlags = s._dbFlags)
          ∧ (shell env lines s).2._dbFlags = s._dbFlags) := by
  refine ⟨openDatabase_flags env path s, openDatabaseFromNextArg_flags env s, ?_,
    helpCommand_preserves env (fun t => t._dbFlags) (fun _ _ _ => rfl) s, ?_, ?_, ?_⟩
  · obtain ⟨l, hl⟩ := subcommand_state env name s
    rw [hl]
  · unfold openWriteableDatabaseFromNextArg
    by_cases hdb : s._db.isSome = true
    · rw [if_pos hdb, if_pos hdb]
      split_ifs <;> simp [fail]
    · rw [if_neg hdb, if_neg hdb, openDatabaseFromNextArg_flags]
  · simp only [Nat.testBit_and, testBit_bitNot32_readOnly]
    simp
  · intro hcmd
    have loop : ∀ (t : CBLiteTool), t._db.isSome = true →
        (runInteractively env lines t).2._dbFlags = t._dbFlags := by
      intro t ht
      have h := interactiveLoop_preserves env (fun u => (u._db.isSome, u._dbFlags))
        (fun _ _ _ => rfl) (true, t._dbFlags)
        (fun c u hu => by
          simp only [Prod.mk.injEq] at hu
          have := hcmd c u hu.1
          simp only [Prod.mk.injEq]
          exact ⟨this.2, this.1.trans hu.2⟩)
        lines
        { t with
          _interactive := true,
          log := t.log ++
            [Event.cout ("Opened "
              ++ (if t._dbFlags &&& kC4DB_ReadOnly ≠ 0 then "read-only" else "writeable")
              ++ " database " ++ env.c4db_getPath t._db ++ "\n")] }
        (by simp only [ht])
      simp only [Prod.mk.injEq] at h
      exact h.2
    refine ⟨loop s, ?_⟩
    have h1 := openDatabaseFromNextArg_flags env s
    have h2 := openDatabaseFromNextArg_ok_handle env s
    simp only [shell, bind_apply, Tool.bind]
    rcases hr : openDatabaseFromNextArg env s with ⟨r, t⟩
    rw [hr] at h1 h2
    simp only at h1
    cases r with
    | ok u =>
      simp only [endOfArgs]
      cases ha : t._args with
      | nil =>
        simp only []
        rw [loop t (h2 t rfl)]
        exact h1
      | cons a as => simp [failMisuse, h1]
    | _ => exact h1

/-- C10 witness: the shell of `shellEnv`, whose `put` starts with
`openWriteableDatabaseFromNextArg` and whose `ls` starts with
`openDatabaseFromNextArg`, opens `plain.cblite2` and leaves the open flags of the
start state (`0x22`) as they were. -/
theorem open_flags_frame_witness :
    (shell shellEnv [["put", "doc", "body"], ["ls"]]
        (startTool ["plain.cblite2"] [])).2._dbFlags = 34 :=
  ((open_flags_frame shellEnv (startTool ["plain.cblite2"] []) "" ""
      [["put", "doc", "body"], ["ls"]]).2.2.2.2.2.2
    (by
      intro c t ht
      cases hd : t._db with
      | none => rw [hd] at ht; simp at ht
      | some db =>
        have h := shellEnv_runSubcommand c t db hd
        exact ⟨h.2, by rw [h.1]; rfl⟩)).2

end CBLite
